import Mathlib

/-!
Shallow embedding of the PowerDNS exporter (janeczku/powerdns_exporter).

The embedding covers `metrics.go` (metric definition tables and
`makeRecursorRTimeHistogram`) and the exporter core of `exporter.go`
(`NewExporter`, `Collect`, `scrape`, `resetMetrics`, `setMetrics`,
`collectMetrics`).

Modelling conventions:
* Go `map[K]V` values are modelled as association lists with unique keys,
  updated with map-assignment semantics (overwrite the entry if the key is
  present, append otherwise).  Go map iteration order is unspecified; the
  model iterates in source-text order, which does not affect any per-key
  value.
* Go `float64` stat values are modelled as `ℚ`.  The one arithmetic
  transform in the pipeline (dividing a latency by 1000000) is exact in
  both `float64` (for the documented inputs) and `ℚ`.
* Go `uint64` arithmetic wraps modulo 2^64; the model uses `ℕ` with an
  explicit `% 2^64` wherever the source computes on `uint64`.
  `uint64(v)` conversion from a non-negative in-range `float64` truncates
  toward zero, i.e. it is `⌊v⌋`; out-of-range conversions are
  implementation-specific in Go, and the model extends the truncation with
  a wrap, restricting all claims to the defined region.
* Prometheus instruments are modelled by their observable values: a gauge
  is one rational, a `CounterVec` is its list of (label value, value)
  children (`Reset` deletes all children, `WithLabelValues(..).Set`
  creates-or-overwrites one child).
* The scrape goroutine / channel handoff in `Collect` synchronises on a
  single channel receive, so its observable effect is sequential: the model
  passes the fetch outcome (`Option (List StatsEntry)`, `none` for a
  transport/status/decode failure) as an explicit argument.
-/

namespace PowerDNSExporter

/-! ### Association-list model of Go maps -/

/-- Lookup in an association list (Go map read `l[k]`). -/
def assocFind [DecidableEq κ] (l : List (κ × α)) (k : κ) : Option α :=
  (l.find? (fun p => p.1 = k)).map (fun p => p.2)

/-- Go map assignment `l[k] = v`: overwrite the entry if the key is
present (the lists built by the model always have unique keys, so
replacing the first occurrence is map-assignment semantics), otherwise
append a new entry. -/
def assocSet [DecidableEq κ] : List (κ × α) → κ → α → List (κ × α)
  | [], k, v => [(k, v)]
  | p :: t, k, v => if p.1 = k then (k, v) :: t else p :: assocSet t k v

/-- Overwrite the entry at key `k` if present; do nothing otherwise.
Used for instruments that are created once at construction time and only
ever updated afterwards (the Go code indexes `gaugeMetrics[def.id]` /
`counterVecMetrics[def.id]`, whose entries always exist by construction). -/
def assocReplace [DecidableEq κ] (l : List (κ × α)) (k : κ) (v : α) : List (κ × α) :=
  l.map (fun p => if p.1 = k then (k, v) else p)

/-- Removal of every entry named `k` (used to model removing a raw stat
key from a snapshot). -/
def assocErase [DecidableEq κ] : List (κ × α) → κ → List (κ × α)
  | [], _ => []
  | p :: t, k => if p.1 = k then assocErase t k else p :: assocErase t k

theorem assocFind_nil [DecidableEq κ] (k : κ) :
    assocFind ([] : List (κ × α)) k = none := rfl

theorem assocFind_cons [DecidableEq κ] (p : κ × α) (l : List (κ × α)) (k : κ) :
    assocFind (p :: l) k = if p.1 = k then some p.2 else assocFind l k := by
  by_cases h : p.1 = k <;> simp [assocFind, List.find?_cons, h]

theorem assocFind_assocSet [DecidableEq κ] (l : List (κ × α)) (k k' : κ) (v : α) :
    assocFind (assocSet l k v) k' = if k' = k then some v else assocFind l k' := by
  induction l with
  | nil =>
      by_cases h : k' = k
      · subst h; simp [assocSet, assocFind_cons]
      · have h2 : ¬ k = k' := fun hh => h hh.symm
        simp [assocSet, assocFind_cons, h, h2, assocFind_nil]
  | cons p t ih =>
      by_cases hp : p.1 = k
      · by_cases h : k' = k
        · subst h; simp [assocSet, hp, assocFind_cons]
        · have h2 : ¬ k = k' := fun hh => h hh.symm
          have hp' : ¬ p.1 = k' := fun hh => h2 (hp.symm.trans hh)
          simp [assocSet, hp, assocFind_cons, h, h2, hp']
      · by_cases hpk' : p.1 = k'
        · have h : ¬ k' = k := fun hh => hp (hpk'.trans hh)
          simp [assocSet, hp, assocFind_cons, hpk', h]
        · simp [assocSet, hp, assocFind_cons, hpk', ih]

theorem assocReplace_cons [DecidableEq κ] (p : κ × α) (t : List (κ × α))
    (k : κ) (v : α) :
    assocReplace (p :: t) k v
      = (if p.1 = k then (k, v) else p) :: assocReplace t k v := by
  simp [assocReplace]

theorem assocFind_assocReplace [DecidableEq κ] (l : List (κ × α)) (k k' : κ) (v : α) :
    assocFind (assocReplace l k v) k'
      = if k' = k then (assocFind l k).map (fun _ => v) else assocFind l k' := by
  induction l with
  | nil => by_cases h : k' = k <;> simp [assocReplace, assocFind, h]
  | cons p t ih =>
      by_cases hp : p.1 = k
      · by_cases h : k' = k
        · subst h; simp [assocReplace_cons, hp, assocFind_cons]
        · have h2 : ¬ k = k' := fun hh => h hh.symm
          have hp' : ¬ p.1 = k' := fun hh => h (hh.symm.trans hp)
          simp [assocReplace_cons, assocFind_cons, hp, hp', h, h2, ih]
      · by_cases hpk' : p.1 = k'
        · have h : ¬ k' = k := fun hh => hp (hpk'.trans hh)
          simp [assocReplace_cons, assocFind_cons, hp, hpk', h, ih]
        · by_cases h : k' = k
          · subst h; simp [assocReplace_cons, assocFind_cons, hp, hpk', ih]
          · simp [assocReplace_cons, assocFind_cons, hp, hpk', h, ih]

theorem assocFind_assocErase [DecidableEq κ] (l : List (κ × α)) (k k' : κ) :
    assocFind (assocErase l k) k' = if k' = k then none else assocFind l k' := by
  induction l with
  | nil => by_cases h : k' = k <;> simp [assocErase, assocFind, h]
  | cons p t ih =>
      by_cases hp : p.1 = k
      · by_cases h : k' = k
        · subst h; simp [assocErase, hp, ih]
        · have h2 : ¬ k = k' := fun hh => h hh.symm
          have hp' : ¬ p.1 = k' := fun hh => h (hh.symm.trans hp)
          simp [assocErase, hp, ih, h, h2, assocFind_cons, hp']
      · by_cases h : k' = k
        · subst h; simp [assocErase, hp, ih, assocFind_cons]
        · simp [assocErase, hp, ih, h, assocFind_cons]

/-- Keys after `assocSet`: unchanged when the key was present, the key
appended otherwise. -/
theorem keys_assocSet [DecidableEq κ] (l : List (κ × α)) (k : κ) (v : α) :
    (assocSet l k v).map (fun p => p.1)
      = if (assocFind l k).isSome then l.map (fun p => p.1)
        else l.map (fun p => p.1) ++ [k] := by
  induction l with
  | nil => simp [assocSet, assocFind]
  | cons p t ih =>
      by_cases hp : p.1 = k
      · simp [assocSet, hp, assocFind_cons]
      · rw [assocFind_cons, if_neg hp]
        by_cases h : (assocFind t k).isSome
        · simp only [assocSet, if_neg hp, List.map_cons, ih, h, if_true]
        · simp only [assocSet, if_neg hp, List.map_cons, ih, h, if_false,
            Bool.false_eq_true, List.cons_append]

theorem keys_assocReplace [DecidableEq κ] (l : List (κ × α)) (k : κ) (v : α) :
    (assocReplace l k v).map (fun p => p.1) = l.map (fun p => p.1) := by
  induction l with
  | nil => rfl
  | cons p t ih =>
      by_cases hp : p.1 = k
      · simp only [assocReplace, List.map_cons, if_pos hp] at ih ⊢
        rw [ih]; simp [hp]
      · simp only [assocReplace, List.map_cons, if_neg hp] at ih ⊢
        rw [ih]

/-! ### metrics.go: metric definition tables -/

/-- Model of `gaugeDefinition`: programmatically creates a `prometheus.Gauge`. -/
structure gaugeDefinition where
  id : ℕ
  name : String
  desc : String
  key : String
deriving DecidableEq

/-- Model of `counterVecDefinition`: programmatically creates a
`prometheus.CounterVec`.  `labelMap` maps PowerDNS stats names to the
Prometheus label value. -/
structure counterVecDefinition where
  id : ℕ
  name : String
  desc : String
  label : String
  labelMap : List (String × String)
deriving DecidableEq

/-- Bucket upper bounds (seconds) for the five response-time stats keys;
the bound 0 marks the `+∞` overflow key `answers-slow`.  The float
constants `.001`, `.01`, `.1` are written as exact rational literals
(`mkRat`), which agree with the floats in value ordering and
(non-)zeroness, the only ways the bounds are consumed. -/
def rTimeBucketMap : List (String × ℚ) :=
  [("answers0-1", mkRat 1 1000),
   ("answers1-10", mkRat 1 100),
   ("answers10-100", mkRat 1 10),
   ("answers100-1000", 1),
   ("answers-slow", 0)]

def rTimeLabelMap : List (String × String) :=
  [("answers0-1", "0-1ms"),
   ("answers1-10", "1-10ms"),
   ("answers10-100", "10-100ms"),
   ("answers100-1000", "100-1000ms"),
   ("answers-slow", ">1000ms")]

def rCodeLabelMap : List (String × String) :=
  [("servfail-answers", "servfail"),
   ("nxdomain-answers", "nxdomain"),
   ("noerror-answers", "noerror")]

def exceptionsLabelMap : List (String × String) :=
  [("resource-limits", "resource-limit"),
   ("over-capacity-drops", "over-capacity-drop"),
   ("unreachables", "ns-unreachable"),
   ("outgoing-timeouts", "outgoing-timeout")]

/-- PowerDNS recursor gauge definitions. -/
def recursorGaugeDefs : List gaugeDefinition :=
  [⟨1, "latency_average_seconds", "Exponential moving average of question-to-answer latency.", "qa-latency"⟩,
   ⟨2, "concurrent_queries", "Number of concurrent queries.", "concurrent-queries"⟩,
   ⟨3, "cache_size", "Number of entries in the cache.", "cache-entries"⟩]

/-- PowerDNS recursor counter-vector definitions. -/
def recursorCounterVecDefs : List counterVecDefinition :=
  [⟨1, "incoming_queries_total", "Total number of incoming queries by network.", "net",
     [("questions", "udp"), ("tcp-questions", "tcp")]⟩,
   ⟨2, "outgoing_queries_total", "Total number of outgoing queries by network.", "net",
     [("all-outqueries", "udp"), ("tcp-outqueries", "tcp")]⟩,
   ⟨3, "cache_lookups_total", "Total number of cache lookups by result.", "result",
     [("cache-hits", "hit"), ("cache-misses", "miss")]⟩,
   ⟨4, "answers_rcodes_total", "Total number of answers by response code.", "rcode", rCodeLabelMap⟩,
   ⟨5, "answers_rtime_total", "Total number of answers grouped by response time slots.", "timeslot", rTimeLabelMap⟩,
   ⟨6, "exceptions_total", "Total number of exceptions by error.", "error", exceptionsLabelMap⟩]

/-- PowerDNS authoritative server gauge definitions. -/
def authoritativeGaugeDefs : List gaugeDefinition :=
  [⟨1, "latency_average_seconds", "Exponential moving average of question-to-answer latency.", "latency"⟩,
   ⟨2, "packet_cache_size", "Number of entries in the packet cache.", "packetcache-size"⟩,
   ⟨3, "signature_cache_size", "Number of entries in the signature cache.", "signature-cache-size"⟩,
   ⟨4, "key_cache_size", "Number of entries in the key cache.", "key-cache-size"⟩,
   ⟨5, "metadata_cache_size", "Number of entries in the metadata cache.", "meta-cache-size"⟩,
   ⟨6, "qsize", "Number of packets waiting for database attention.", "qsize-q"⟩]

/-- PowerDNS authoritative server counter-vector definitions. -/
def authoritativeCounterVecDefs : List counterVecDefinition :=
  [⟨1, "queries_total", "Total number of queries by network.", "net",
     [("tcp-queries", "tcp"), ("udp-queries", "udp")]⟩,
   ⟨2, "answers_total", "Total number of answers by network.", "net",
     [("tcp-answers", "tcp"), ("udp-answers", "udp")]⟩,
   ⟨3, "recursive_queries_total", "Total number of recursive queries by status.", "status",
     [("rd-queries", "requested"), ("recursing-questions", "processed"),
      ("recursing-answers", "answered"), ("recursion-unanswered", "unanswered")]⟩,
   ⟨4, "update_queries_total", "Total number of DNS update queries by status.", "status",
     [("dnsupdate-answers", "answered"), ("dnsupdate-changes", "applied"),
      ("dnsupdate-queries", "requested"), ("dnsupdate-refused", "refused")]⟩,
   ⟨5, "packet_cache_lookups_total", "Total number of packet-cache lookups by result.", "result",
     [("packetcache-hit", "hit"), ("packetcache-miss", "miss")]⟩,
   ⟨6, "query_cache_lookups_total", "Total number of query-cache lookups by result.", "result",
     [("query-cache-hit", "hit"), ("query-cache-miss", "miss")]⟩,
   ⟨7, "exceptions_total", "Total number of exceptions by error.", "error",
     [("servfail-packets", "servfail"), ("timedout-questions", "timeout"),
      ("udp-recvbuf-errors", "recvbuf-error"), ("udp-sndbuf-errors", "sndbuf-error")]⟩]

/-- PowerDNS Dnsdist metric definitions (empty). -/
def dnsdistGaugeDefs : List gaugeDefinition := []

def dnsdistCounterVecDefs : List counterVecDefinition := []

/-! ### metrics.go: makeRecursorRTimeHistogram -/

/-- A raw stats snapshot: name-to-value mapping (`map[string]float64`). -/
abbrev StatsMap := List (String × ℚ)

/-- Two to the power 64: the modulus of Go `uint64` arithmetic. -/
def UINT64MOD : ℕ := 18446744073709551616

/-- Go `uint64(v)` for a `float64` value, modelled on `ℚ`: truncation
toward zero for non-negative in-range values (the region where the Go
conversion is defined; out-of-range conversions are
implementation-specific and the model wraps them). -/
def goUint64 (q : ℚ) : ℕ := (Rat.floor q).toNat % UINT64MOD

/-- Go `uint64` addition (wraps modulo `2^64`). -/
def addU64 (a b : ℕ) : ℕ := (a + b) % UINT64MOD

/-- The observable content of a `prometheus` constant histogram: total
observation count, sum of observations, and cumulative bucket counts
keyed by upper bound. -/
structure ConstHistogram where
  count : ℕ
  sum : ℚ
  buckets : List (ℚ × ℕ)
deriving DecidableEq

/-- The linear-to-cumulative bucket conversion loop of
`makeRecursorRTimeHistogram` (`cumsum = cumsum + buckets[k]`, on
`uint64`). -/
def cumulate (acc : ℕ) : List (ℚ × ℕ) → List (ℚ × ℕ)
  | [] => []
  | (b, c) :: rest => (b, addU64 acc c) :: cumulate (addU64 acc c) rest

/-- Model of `makeRecursorRTimeHistogram`: builds a fixed-value response time
histogram from the five stats counters named in `rTimeBucketMap`.  Any
missing key is an error (`none`).  Keys whose bound is `0` (the overflow
key) are excluded from the buckets but counted in the total.  The Go code
iterates the bucket map in unspecified order and then sorts the collected
bounds ascending; since the five bounds are distinct and already listed in
ascending order (overflow key last), the model reads them off in list
order. -/
def makeRecursorRTimeHistogram (statsMap : StatsMap) : Option ConstHistogram :=
  if rTimeBucketMap.all (fun kv => (assocFind statsMap kv.1).isSome) then
    some
      { count := (rTimeBucketMap.map
            (fun kv => goUint64 ((assocFind statsMap kv.1).getD 0))).foldl addU64 0
        sum := 0
        buckets := cumulate 0 ((rTimeBucketMap.filter (fun kv => ¬ kv.2 = 0)).map
            (fun kv => (kv.2, goUint64 ((assocFind statsMap kv.1).getD 0)))) }
  else
    none

theorem isSome_assocFind_of_keys_eq [DecidableEq κ] (l l' : List (κ × α))
    (h : l.map (fun p => p.1) = l'.map (fun p => p.1)) (k : κ) :
    (assocFind l k).isSome = (assocFind l' k).isSome := by
  induction l generalizing l' with
  | nil =>
      cases l' with
      | nil => rfl
      | cons q s => simp at h
  | cons p t ih =>
      cases l' with
      | nil => simp at h
      | cons q s =>
          simp only [List.map_cons, List.cons.injEq] at h
          by_cases hp : p.1 = k
          · have hq : q.1 = k := h.1 ▸ hp
            simp [assocFind_cons, hp, hq]
          · have hq : ¬ q.1 = k := h.1 ▸ hp
            simp [assocFind_cons, hp, hq, ih s h.2]

/-! ### exporter.go: the Exporter and its collection cycle -/

/-- Model of `StatsEntry`: one record of the JSON stats array
(`{name, type, value}`). -/
structure StatsEntry where
  name : String
  kind : String
  value : ℚ
deriving DecidableEq

/-- Observable state of an `Exporter`: the diagnostic instruments
(`up`, `totalScrapes`, `jsonParseFailures`), the per-id gauge values, the
per-id counter-vector children (label value → counter value), and the
bound registry tables. -/
structure Exporter where
  serverType : String
  up : ℚ
  totalScrapes : ℕ
  jsonParseFailures : ℕ
  gaugeValues : List (ℕ × ℚ)
  counterVecValues : List (ℕ × List (String × ℚ))
  gaugeDefs : List gaugeDefinition
  counterVecDefs : List counterVecDefinition
deriving DecidableEq

/-- The `switch serverType` of `NewExporter`: selects the registry tables;
an unknown flavor leaves both slices nil. -/
def registryFor (serverType : String) :
    List gaugeDefinition × List counterVecDefinition :=
  if serverType = "recursor" then (recursorGaugeDefs, recursorCounterVecDefs)
  else if serverType = "authoritative" then
    (authoritativeGaugeDefs, authoritativeCounterVecDefs)
  else if serverType = "dnsdist" then (dnsdistGaugeDefs, dnsdistCounterVecDefs)
  else ([], [])

/-- Model of `NewExporter`: creates one gauge instrument per gauge definition and
one counter-vector instrument per counter-vector definition (a fresh
prometheus gauge reads 0; a fresh `CounterVec` has no children).  The API
key and host URL only configure the out-of-scope HTTP fetcher and are not
part of the observable state modelled here. -/
def NewExporter (serverType : String) : Exporter :=
  { serverType := serverType
    up := 0
    totalScrapes := 0
    jsonParseFailures := 0
    gaugeValues := (registryFor serverType).1.foldl (fun acc d => assocSet acc d.id 0) []
    counterVecValues := (registryFor serverType).2.foldl (fun acc d => assocSet acc d.id []) []
    gaugeDefs := (registryFor serverType).1
    counterVecDefs := (registryFor serverType).2 }

def Exporter.incParseFailures (e : Exporter) : Exporter :=
  { e with jsonParseFailures := e.jsonParseFailures + 1 }

/-- Model of `e.gaugeMetrics[id].Set(v)` (the instrument exists by construction;
a missing id would be a nil dereference in Go, never reached). -/
def Exporter.setGauge (e : Exporter) (i : ℕ) (v : ℚ) : Exporter :=
  { e with gaugeValues := assocReplace e.gaugeValues i v }

/-- Model of `e.counterVecMetrics[id].WithLabelValues(label).Set(v)`:
creates-or-overwrites the child for `label`. -/
def Exporter.setCounterValue (e : Exporter) (i : ℕ) (label : String) (v : ℚ) : Exporter :=
  { e with counterVecValues :=
      e.counterVecValues.map (fun p => if p.1 = i then (p.1, assocSet p.2 label v) else p) }

/-- Model of `resetMetrics`: `Reset()` deletes all children of every
counter-vector instrument. -/
def Exporter.resetMetrics (e : Exporter) : Exporter :=
  { e with counterVecValues := e.counterVecValues.map (fun p => (p.1, [])) }

/-- Go `strings.HasSuffix`. -/
def goHasSuffix (s suffixStr : String) : Bool :=
  suffixStr.data.isSuffixOf s.data

/-- One iteration of the gauge loop in `setMetrics`: look the source key
up in the snapshot; if present set the gauge (latency keys are converted
from microseconds to seconds), otherwise count a parse failure. -/
def applyGaugeDef (m : StatsMap) (e : Exporter) (d : gaugeDefinition) : Exporter :=
  match assocFind m d.key with
  | some v => e.setGauge d.id (if goHasSuffix d.key "latency" then v / 1000000 else v)
  | none => e.incParseFailures

/-- One iteration of the inner counter loop in `setMetrics` for the
labelMap entry `kv = (sourceKey, labelValue)` of the definition with id
`i`. -/
def applyCounterEntry (m : StatsMap) (i : ℕ) (e : Exporter) (kv : String × String) : Exporter :=
  match assocFind m kv.1 with
  | some v => e.setCounterValue i kv.2 v
  | none => e.incParseFailures

def applyCounterDef (m : StatsMap) (e : Exporter) (d : counterVecDefinition) : Exporter :=
  d.labelMap.foldl (applyCounterEntry m d.id) e

/-- The two populate loops of `setMetrics` (all gauge definitions, then
all counter-vector definitions).  Go iterates each `labelMap` in
unspecified order; the model iterates in source-text order, which does
not affect any per-label value since label values within one definition
are distinct. -/
def Exporter.populate (e : Exporter) (m : StatsMap) : Exporter :=
  e.counterVecDefs.foldl (applyCounterDef m) (e.gaugeDefs.foldl (applyGaugeDef m) e)

/-- Building `statsMap[s.Name] = s.Value` over the decoded stats array. -/
def buildStatsMap (stats : List StatsEntry) : StatsMap :=
  stats.foldl (fun m s => assocSet m s.name s.value) []

/-- The body of `setMetrics` after the snapshot map is built:
`if len(statsMap) == 0 { return }` and otherwise the two populate
loops. -/
def Exporter.setMetricsMap (e : Exporter) (statsMap : StatsMap) : Exporter :=
  if statsMap.isEmpty then e else e.populate statsMap

/-- Model of `setMetrics`: receives the decoded stats array (the channel handoff),
builds the snapshot map and populates the instruments; returns the
updated exporter together with the snapshot map. -/
def Exporter.setMetrics (e : Exporter) (stats : List StatsEntry) : Exporter × StatsMap :=
  (e.setMetricsMap (buildStatsMap stats), buildStatsMap stats)

/-- Model of `scrape`: increments the scrape counter, then on fetch failure sets
`up` to 0, counts a parse failure and closes the channel without data
(the receiver gets a nil slice); on success sets `up` to 1 and hands the
decoded array over. -/
def Exporter.scrape (e : Exporter) (fetched : Option (List StatsEntry)) :
    Exporter × List StatsEntry :=
  let e1 := { e with totalScrapes := e.totalScrapes + 1 }
  match fetched with
  | none => ({ e1 with up := 0, jsonParseFailures := e1.jsonParseFailures + 1 }, [])
  | some data => ({ e1 with up := 1 }, data)

/-- One metric emitted on the outgoing `chan prometheus.Metric`. -/
inductive Metric where
  | up : ℚ → Metric
  | totalScrapes : ℕ → Metric
  | jsonParseFailures : ℕ → Metric
  | counterSample : ℕ → String → ℚ → Metric
  | gauge : ℕ → ℚ → Metric
  | histogram : ConstHistogram → Metric
deriving DecidableEq

/-- Model of `collectMetrics`: emit every counter-vector child, then every gauge,
then (recursor only) the response-time histogram; a histogram build error
just ends the emission early, omitting only the histogram. -/
def Exporter.collectMetrics (e : Exporter) (statsMap : StatsMap) : List Metric :=
  (e.counterVecValues.flatMap (fun p => p.2.map (fun c => Metric.counterSample p.1 c.1 c.2)))
  ++ (e.gaugeValues.map (fun p => Metric.gauge p.1 p.2))
  ++ (if e.serverType = "recursor" then
        match makeRecursorRTimeHistogram statsMap with
        | some h => [Metric.histogram h]
        | none => []
      else [])

/-- Model of `Collect`: one collection cycle.  The scrape result is handed over
through the channel; under the exporter mutex the cycle resets the
counter-vectors, repopulates from the snapshot, then emits `up`,
`totalScrapes`, `jsonParseFailures` and the remaining instruments. -/
def Exporter.Collect (e : Exporter) (fetched : Option (List StatsEntry)) :
    Exporter × List Metric :=
  let s := e.scrape fetched
  let e2 := s.1.resetMetrics
  let r := e2.setMetrics s.2
  (r.1, Metric.up r.1.up :: Metric.totalScrapes r.1.totalScrapes ::
        Metric.jsonParseFailures r.1.jsonParseFailures :: r.1.collectMetrics r.2)

/-- Observable value of the gauge instrument with definition id `i`. -/
def Exporter.gaugeValue (e : Exporter) (i : ℕ) : Option ℚ :=
  assocFind e.gaugeValues i

/-- Observable value of the child `label` of the counter-vector
instrument with definition id `i`. -/
def Exporter.counterValue (e : Exporter) (i : ℕ) (label : String) : Option ℚ :=
  match assocFind e.counterVecValues i with
  | some children => assocFind children label
  | none => none

/-- Number of registry references to the raw stats key `k`: gauge
definitions keyed `k` plus labelMap entries sourced from `k`. -/
def refCount (gds : List gaugeDefinition) (cds : List counterVecDefinition)
    (k : String) : ℕ :=
  (gds.filter (fun d => d.key = k)).length
    + (cds.map (fun d => (d.labelMap.filter (fun kv => kv.1 = k)).length)).sum

/-! ### Supporting lemmas -/

theorem assocFind_eq_none_iff [DecidableEq κ] (l : List (κ × α)) (k : κ) :
    assocFind l k = none ↔ ¬ k ∈ l.map (fun p => p.1) := by
  induction l with
  | nil => simp [assocFind]
  | cons p t ih =>
      rw [assocFind_cons]
      by_cases hp : p.1 = k
      · simp [hp]
      · simp only [if_neg hp, ih, List.map_cons, List.mem_cons]
        constructor
        · intro h hmem
          rcases hmem with h1 | h2
          · exact hp h1.symm
          · exact h h2
        · intro h hmem
          exact h (Or.inr hmem)

theorem nodup_keys_assocSet [DecidableEq κ] (l : List (κ × α)) (k : κ) (v : α)
    (h : (l.map (fun p => p.1)).Nodup) :
    ((assocSet l k v).map (fun p => p.1)).Nodup := by
  rw [keys_assocSet]
  by_cases hs : (assocFind l k).isSome
  · simp [hs, h]
  · have hk : ¬ k ∈ l.map (fun p => p.1) := by
      rw [← assocFind_eq_none_iff]
      exact Option.not_isSome_iff_eq_none.mp hs
    rw [if_neg hs, List.nodup_append]
    refine ⟨h, List.nodup_singleton k, ?_⟩
    intro a ha hha
    rw [List.mem_singleton] at hha
    exact hk (hha ▸ ha)

theorem assocFind_foldl_assocSet (l : List StatsEntry) (m : StatsMap) (k : String) :
    assocFind (l.foldl (fun m s => assocSet m s.name s.value) m) k
      = ((l.reverse.find? (fun s => s.name = k)).map (fun s => s.value)).or
          (assocFind m k) := by
  induction l generalizing m with
  | nil => simp
  | cons s t ih =>
      simp only [List.foldl_cons, List.reverse_cons]
      rw [ih, List.find?_append]
      cases hf : t.reverse.find? (fun s => decide (s.name = k)) with
      | some u => simp [Option.or]
      | none =>
          by_cases hk : s.name = k
          · simp [Option.or, hk, assocFind_assocSet]
          · have hk2 : ¬ k = s.name := fun hh => hk hh.symm
            simp [Option.or, hk, hk2, assocFind_assocSet]

theorem nodup_keys_foldl_assocSet (l : List StatsEntry) (m : StatsMap)
    (h : (m.map (fun p => p.1)).Nodup) :
    (((l.foldl (fun m s => assocSet m s.name s.value) m)).map (fun p => p.1)).Nodup := by
  induction l generalizing m with
  | nil => exact h
  | cons s t ih => exact ih _ (nodup_keys_assocSet _ _ _ h)

theorem makeRecursorRTimeHistogram_nil :
    makeRecursorRTimeHistogram [] = none := by decide

/-- Emitting the children of counter-vectors that have all been `Reset`
produces no samples. -/
theorem flatMap_zeroed_children (l : List (ℕ × List (String × ℚ))) :
    ((l.map (fun p => (p.1, ([] : List (String × ℚ))))).flatMap
      (fun p => p.2.map (fun c => Metric.counterSample p.1 c.1 c.2))) = [] := by
  induction l with
  | nil => rfl
  | cons p t ih => simp [ih]

/-! ### Claim C9 -/

/-- C9: the snapshot map built from the fetched ordered sequence of
stats entries has unique keys, and when the remote source repeats a name
the value of the last occurrence in sequence order wins. -/
theorem claimC9 (stats : List StatsEntry) (k : String) :
    ((buildStatsMap stats).map (fun p => p.1)).Nodup
    ∧ assocFind (buildStatsMap stats) k
        = (stats.reverse.find? (fun s => s.name = k)).map (fun s => s.value) := by
  constructor
  · exact nodup_keys_foldl_assocSet stats [] (by simp)
  · rw [buildStatsMap, assocFind_foldl_assocSet]
    simp [assocFind]

/-! ### Claim C10 -/

/-- C10: a successful fetch whose decoded stats array is empty skips the
populate phase entirely: `setMetrics` returns the exporter unchanged with
an empty snapshot map (so no gauge is set, no counter-vector label is set
and the parse-failure counter is untouched), and the full cycle leaves
every counter-vector empty after the reset while gauges keep their prior
values. -/
theorem claimC10 (e : Exporter) :
    e.setMetrics [] = (e, [])
    ∧ (e.Collect (some [])).1
        = { e with up := 1, totalScrapes := e.totalScrapes + 1,
                   counterVecValues := e.counterVecValues.map (fun p => (p.1, [])) } := by
  constructor
  · simp [Exporter.setMetrics, Exporter.setMetricsMap, buildStatsMap]
  · simp [Exporter.Collect, Exporter.scrape, Exporter.resetMetrics,
      Exporter.setMetrics, Exporter.setMetricsMap, buildStatsMap]

/-! ### Claim C2 (corrected) -/

/-- A concrete recursor exporter state with one populated counter-vector
child and one gauge value, as left behind by a prior cycle. -/
def priorCycleExporter : Exporter :=
  { serverType := "recursor", up := 1, totalScrapes := 3, jsonParseFailures := 0,
    gaugeValues := [(1, 2)], counterVecValues := [(1, [("udp", 5)])],
    gaugeDefs := recursorGaugeDefs, counterVecDefs := recursorCounterVecDefs }

/-- C2 counterexample: the claim states that on a failed fetch all
counter-group instruments keep their prior values and that nothing beyond
the health / scrape-count / parse-failure instruments is published.  On a
concrete exporter with one populated counter-vector child, the failure
cycle resets the counter-vector (so its value is not the prior one) and
additionally publishes the gauge instruments. -/
theorem claimC2_counterexample :
    ¬ (priorCycleExporter.Collect none).1.counterVecValues
        = priorCycleExporter.counterVecValues
    ∧ (priorCycleExporter.Collect none).2
        = [Metric.up 0, Metric.totalScrapes 4, Metric.jsonParseFailures 1,
           Metric.gauge 1 2] := by
  decide

/-- C2 (amended): on a failed fetch the cycle sets health to 0,
increments the scrape and parse-failure counters by one, leaves the gauge
values unchanged, but resets every counter-vector to empty (rather than
leaving it at its prior value), and publishes — besides the three
diagnostic instruments — every gauge instrument at its prior value (and
no counter samples and no histogram). -/
theorem claimC2 (e : Exporter) :
    (e.Collect none).1
      = { e with up := 0, totalScrapes := e.totalScrapes + 1,
                 jsonParseFailures := e.jsonParseFailures + 1,
                 counterVecValues := e.counterVecValues.map (fun p => (p.1, [])) }
    ∧ (e.Collect none).2
      = Metric.up 0 :: Metric.totalScrapes (e.totalScrapes + 1)
        :: Metric.jsonParseFailures (e.jsonParseFailures + 1)
        :: e.gaugeValues.map (fun p => Metric.gauge p.1 p.2) := by
  constructor
  · simp [Exporter.Collect, Exporter.scrape, Exporter.resetMetrics,
      Exporter.setMetrics, Exporter.setMetricsMap, buildStatsMap]
  · simp [Exporter.Collect, Exporter.scrape, Exporter.resetMetrics,
      Exporter.setMetrics, Exporter.setMetricsMap, buildStatsMap,
      Exporter.collectMetrics, makeRecursorRTimeHistogram_nil,
      flatMap_zeroed_children]

/-! ### Claim C1 (corrected): the response-time histogram -/

theorem rTimeBucketMap_filter :
    rTimeBucketMap.filter (fun kv => ¬ kv.2 = 0)
      = [("answers0-1", mkRat 1 1000), ("answers1-10", mkRat 1 100),
         ("answers10-100", mkRat 1 10), ("answers100-1000", 1)] := by
  decide

theorem addU64_eq_of_lt (a b : ℕ) (h : a + b < UINT64MOD) : addU64 a b = a + b :=
  Nat.mod_eq_of_lt h

theorem goUint64_lt (q : ℚ) : goUint64 q < UINT64MOD :=
  Nat.mod_lt _ (by norm_num [UINT64MOD])

theorem cumulate_map_fst (l : List (ℚ × ℕ)) (acc : ℕ) :
    (cumulate acc l).map (fun b => b.1) = l.map (fun b => b.1) := by
  induction l generalizing acc with
  | nil => rfl
  | cons p t ih => obtain ⟨b, c⟩ := p; simp [cumulate, ih]

/-- Without `uint64` overflow, the cumulative counts are non-decreasing
and bounded below by the running total. -/
theorem cumulate_counts_chain (l : List (ℚ × ℕ)) :
    ∀ acc, acc + (l.map (fun b => b.2)).sum < UINT64MOD →
      List.Chain' (fun a b => a ≤ b) ((cumulate acc l).map (fun b => b.2))
      ∧ ∀ x ∈ (cumulate acc l).map (fun b => b.2), acc ≤ x := by
  induction l with
  | nil => intro acc h; simp [cumulate]
  | cons p t ih =>
      intro acc h
      obtain ⟨b, c⟩ := p
      simp only [List.map_cons, List.sum_cons] at h
      have hacc : addU64 acc c = acc + c := addU64_eq_of_lt _ _ (by omega)
      have ht := ih (acc + c) (by omega)
      simp only [cumulate, hacc, List.map_cons]
      constructor
      · refine List.chain'_cons'.mpr ⟨?_, ht.1⟩
        intro y hy
        exact ht.2 y (List.mem_of_mem_head? hy)
      · intro x hx
        rcases List.mem_cons.mp hx with h1 | h2
        · omega
        · exact le_trans (Nat.le_add_right acc c) (ht.2 x h2)

theorem foldl_addU64 (l : List ℕ) :
    ∀ acc, acc + l.sum < UINT64MOD → l.foldl addU64 acc = acc + l.sum := by
  induction l with
  | nil => intro acc h; simp
  | cons c t ih =>
      intro acc h
      simp only [List.sum_cons] at h
      simp only [List.foldl_cons]
      rw [addU64_eq_of_lt _ _ (by omega), ih (acc + c) (by omega)]
      simp only [List.sum_cons]
      omega

/-- C1 (amended): for a snapshot holding all five response-time bucket
keys with non-negative values whose `uint64` conversions sum below `2^64`
(no `uint64` wraparound — with wraparound the cumulative counts can
decrease, see the counterexample), `makeRecursorRTimeHistogram` yields a
histogram whose finite bucket bounds are exactly the four ascending
bounds (the `+∞` overflow key is excluded), whose cumulative counts are
non-decreasing, and whose total observation count is the sum of all five
converted bucket counts; on inputs `[1,10,100,1000,0]` it yields
cumulative counts `[1,11,111,1111]` and total `1111`. -/
theorem claimC1 :
    (∀ (m : StatsMap) (v1 v2 v3 v4 v5 : ℚ),
      assocFind m "answers0-1" = some v1 →
      assocFind m "answers1-10" = some v2 →
      assocFind m "answers10-100" = some v3 →
      assocFind m "answers100-1000" = some v4 →
      assocFind m "answers-slow" = some v5 →
      0 ≤ v1 → 0 ≤ v2 → 0 ≤ v3 → 0 ≤ v4 → 0 ≤ v5 →
      goUint64 v1 + goUint64 v2 + goUint64 v3 + goUint64 v4 + goUint64 v5 < UINT64MOD →
      ∃ hist, makeRecursorRTimeHistogram m = some hist
        ∧ hist.buckets.map (fun b => b.1) = [mkRat 1 1000, mkRat 1 100, mkRat 1 10, 1]
        ∧ List.Chain' (fun a b => a ≤ b) (hist.buckets.map (fun b => b.2))
        ∧ hist.count
            = goUint64 v1 + goUint64 v2 + goUint64 v3 + goUint64 v4 + goUint64 v5)
    ∧ makeRecursorRTimeHistogram
        [("answers0-1", 1), ("answers1-10", 10), ("answers10-100", 100),
         ("answers100-1000", 1000), ("answers-slow", 0)]
      = some ⟨1111, 0, [(mkRat 1 1000, 1), (mkRat 1 100, 11), (mkRat 1 10, 111), (1, 1111)]⟩ := by
  constructor
  · intro m v1 v2 v3 v4 v5 h1 h2 h3 h4 h5 _ _ _ _ _ hsum
    unfold makeRecursorRTimeHistogram
    rw [if_pos (by simp [rTimeBucketMap, h1, h2, h3, h4, h5])]
    refine ⟨_, rfl, ?_, ?_, ?_⟩
    · rw [cumulate_map_fst, rTimeBucketMap_filter]
      simp
    · refine (cumulate_counts_chain _ 0 ?_).1
      rw [rTimeBucketMap_filter]
      simp only [List.map_cons, List.map_nil, List.sum_cons, List.sum_nil,
        h1, h2, h3, h4, Option.getD_some]
      omega
    · show (rTimeBucketMap.map
          (fun kv => goUint64 ((assocFind m kv.1).getD 0))).foldl addU64 0 = _
      rw [show rTimeBucketMap.map (fun kv => goUint64 ((assocFind m kv.1).getD 0))
          = [goUint64 v1, goUint64 v2, goUint64 v3, goUint64 v4, goUint64 v5] by
        simp [rTimeBucketMap, h1, h2, h3, h4, h5]]
      rw [foldl_addU64 _ 0 (by simp; omega)]
      simp
      omega
  · decide

/-- C1 counterexample: with `uint64` wraparound (two buckets holding
`2^63`, exactly representable in `float64` and in range for the `uint64`
conversion), the emitted cumulative counts decrease and the total is 0
rather than the input sum, refuting the claim for general non-negative
inputs. -/
theorem claimC1_counterexample :
    makeRecursorRTimeHistogram
        [("answers0-1", 9223372036854775808), ("answers1-10", 9223372036854775808),
         ("answers10-100", 0), ("answers100-1000", 0), ("answers-slow", 0)]
      = some ⟨0, 0, [(mkRat 1 1000, 9223372036854775808), (mkRat 1 100, 0),
                     (mkRat 1 10, 0), (1, 0)]⟩
    ∧ ¬ List.Chain' (fun a b => a ≤ b)
        ([(mkRat 1 1000, (9223372036854775808 : ℕ)), (mkRat 1 100, 0),
          (mkRat 1 10, 0), (1, 0)].map (fun b => b.2)) := by
  constructor
  · decide
  · intro h
    rw [List.map_cons, List.map_cons, List.chain'_cons] at h
    exact absurd h.1 (by omega)

/-- C1 witness: the amended theorem applied to the documented scenario
`[1,10,100,1000,0]`. -/
theorem claimC1_witness :
    ∃ hist, makeRecursorRTimeHistogram
        [("answers0-1", 1), ("answers1-10", 10), ("answers10-100", 100),
         ("answers100-1000", 1000), ("answers-slow", 0)] = some hist
      ∧ hist.buckets.map (fun b => b.1) = [mkRat 1 1000, mkRat 1 100, mkRat 1 10, 1]
      ∧ List.Chain' (fun a b => a ≤ b) (hist.buckets.map (fun b => b.2))
      ∧ hist.count = goUint64 1 + goUint64 10 + goUint64 100 + goUint64 1000 + goUint64 0 :=
  claimC1.1 _ 1 10 100 1000 0 (by decide) (by decide) (by decide) (by decide)
    (by decide) (by decide) (by decide) (by decide) (by decide) (by decide) (by decide)

/-! ### Frame lemmas: which fields each populate step can touch -/

theorem foldl_applyGaugeDef_frame (m : StatsMap) (gds : List gaugeDefinition) :
    ∀ e : Exporter,
      (gds.foldl (applyGaugeDef m) e).serverType = e.serverType
      ∧ (gds.foldl (applyGaugeDef m) e).up = e.up
      ∧ (gds.foldl (applyGaugeDef m) e).totalScrapes = e.totalScrapes
      ∧ (gds.foldl (applyGaugeDef m) e).counterVecValues = e.counterVecValues
      ∧ (gds.foldl (applyGaugeDef m) e).gaugeDefs = e.gaugeDefs
      ∧ (gds.foldl (applyGaugeDef m) e).counterVecDefs = e.counterVecDefs := by
  induction gds with
  | nil => intro e; simp
  | cons d t ih =>
      intro e
      simp only [List.foldl_cons]
      obtain ⟨a1, a2, a3, a4, a5, a6⟩ := ih (applyGaugeDef m e d)
      have hstep :
          (applyGaugeDef m e d).serverType = e.serverType
          ∧ (applyGaugeDef m e d).up = e.up
          ∧ (applyGaugeDef m e d).totalScrapes = e.totalScrapes
          ∧ (applyGaugeDef m e d).counterVecValues = e.counterVecValues
          ∧ (applyGaugeDef m e d).gaugeDefs = e.gaugeDefs
          ∧ (applyGaugeDef m e d).counterVecDefs = e.counterVecDefs := by
        unfold applyGaugeDef
        cases assocFind m d.key <;>
          simp [Exporter.setGauge, Exporter.incParseFailures]
      obtain ⟨b1, b2, b3, b4, b5, b6⟩ := hstep
      exact ⟨a1.trans b1, a2.trans b2, a3.trans b3, a4.trans b4, a5.trans b5, a6.trans b6⟩

theorem keys_update_children (l : List (ℕ × List (String × ℚ))) (i : ℕ)
    (f : List (String × ℚ) → List (String × ℚ)) :
    (l.map (fun p => if p.1 = i then (p.1, f p.2) else p)).map (fun p => p.1)
      = l.map (fun p => p.1) := by
  induction l with
  | nil => rfl
  | cons p t ih => by_cases hp : p.1 = i <;> simp [hp, ih]

theorem keys_setCounterValue (e : Exporter) (i : ℕ) (label : String) (v : ℚ) :
    (e.setCounterValue i label v).counterVecValues.map (fun p => p.1)
      = e.counterVecValues.map (fun p => p.1) :=
  keys_update_children e.counterVecValues i (fun ch => assocSet ch label v)

theorem foldl_applyCounterEntry_frame (m : StatsMap) (i : ℕ) (lm : List (String × String)) :
    ∀ e : Exporter,
      (lm.foldl (applyCounterEntry m i) e).serverType = e.serverType
      ∧ (lm.foldl (applyCounterEntry m i) e).up = e.up
      ∧ (lm.foldl (applyCounterEntry m i) e).totalScrapes = e.totalScrapes
      ∧ (lm.foldl (applyCounterEntry m i) e).gaugeValues = e.gaugeValues
      ∧ (lm.foldl (applyCounterEntry m i) e).gaugeDefs = e.gaugeDefs
      ∧ (lm.foldl (applyCounterEntry m i) e).counterVecDefs = e.counterVecDefs
      ∧ (lm.foldl (applyCounterEntry m i) e).counterVecValues.map (fun p => p.1)
          = e.counterVecValues.map (fun p => p.1) := by
  induction lm with
  | nil => intro e; simp
  | cons kv t ih =>
      intro e
      simp only [List.foldl_cons]
      obtain ⟨a1, a2, a3, a4, a5, a6, a7⟩ := ih (applyCounterEntry m i e kv)
      have hstep :
          (applyCounterEntry m i e kv).serverType = e.serverType
          ∧ (applyCounterEntry m i e kv).up = e.up
          ∧ (applyCounterEntry m i e kv).totalScrapes = e.totalScrapes
          ∧ (applyCounterEntry m i e kv).gaugeValues = e.gaugeValues
          ∧ (applyCounterEntry m i e kv).gaugeDefs = e.gaugeDefs
          ∧ (applyCounterEntry m i e kv).counterVecDefs = e.counterVecDefs
          ∧ (applyCounterEntry m i e kv).counterVecValues.map (fun p => p.1)
              = e.counterVecValues.map (fun p => p.1) := by
        unfold applyCounterEntry
        cases assocFind m kv.1 with
        | some v =>
            refine ⟨rfl, rfl, rfl, rfl, rfl, rfl, ?_⟩
            exact keys_setCounterValue e i kv.2 v
        | none => simp [Exporter.incParseFailures]
      obtain ⟨b1, b2, b3, b4, b5, b6, b7⟩ := hstep
      exact ⟨a1.trans b1, a2.trans b2, a3.trans b3, a4.trans b4, a5.trans b5,
        a6.trans b6, a7.trans b7⟩

theorem foldl_applyCounterDef_frame (m : StatsMap) (cds : List counterVecDefinition) :
    ∀ e : Exporter,
      (cds.foldl (applyCounterDef m) e).serverType = e.serverType
      ∧ (cds.foldl (applyCounterDef m) e).up = e.up
      ∧ (cds.foldl (applyCounterDef m) e).totalScrapes = e.totalScrapes
      ∧ (cds.foldl (applyCounterDef m) e).gaugeValues = e.gaugeValues
      ∧ (cds.foldl (applyCounterDef m) e).gaugeDefs = e.gaugeDefs
      ∧ (cds.foldl (applyCounterDef m) e).counterVecDefs = e.counterVecDefs
      ∧ (cds.foldl (applyCounterDef m) e).counterVecValues.map (fun p => p.1)
          = e.counterVecValues.map (fun p => p.1) := by
  induction cds with
  | nil => intro e; simp
  | cons d t ih =>
      intro e
      simp only [List.foldl_cons]
      obtain ⟨a1, a2, a3, a4, a5, a6, a7⟩ := ih (applyCounterDef m e d)
      obtain ⟨b1, b2, b3, b4, b5, b6, b7⟩ :=
        foldl_applyCounterEntry_frame m d.id d.labelMap e
      exact ⟨a1.trans b1, a2.trans b2, a3.trans b3, a4.trans b4, a5.trans b5,
        a6.trans b6, a7.trans b7⟩

theorem populate_frame (e : Exporter) (m : StatsMap) :
    (e.populate m).serverType = e.serverType
    ∧ (e.populate m).up = e.up
    ∧ (e.populate m).totalScrapes = e.totalScrapes
    ∧ (e.populate m).gaugeDefs = e.gaugeDefs
    ∧ (e.populate m).counterVecDefs = e.counterVecDefs
    ∧ (e.populate m).counterVecValues.map (fun p => p.1)
        = e.counterVecValues.map (fun p => p.1) := by
  unfold Exporter.populate
  obtain ⟨a1, a2, a3, a4, a5, a6, a7⟩ :=
    foldl_applyCounterDef_frame m e.counterVecDefs (e.gaugeDefs.foldl (applyGaugeDef m) e)
  obtain ⟨b1, b2, b3, b4, b5, b6⟩ := foldl_applyGaugeDef_frame m e.gaugeDefs e
  refine ⟨a1.trans b1, a2.trans b2, a3.trans b3, a5.trans b5, a6.trans b6, ?_⟩
  rw [a7, b4]

theorem setMetricsMap_frame (e : Exporter) (m : StatsMap) :
    (e.setMetricsMap m).serverType = e.serverType
    ∧ (e.setMetricsMap m).up = e.up
    ∧ (e.setMetricsMap m).totalScrapes = e.totalScrapes
    ∧ (e.setMetricsMap m).gaugeDefs = e.gaugeDefs
    ∧ (e.setMetricsMap m).counterVecDefs = e.counterVecDefs
    ∧ (e.setMetricsMap m).counterVecValues.map (fun p => p.1)
        = e.counterVecValues.map (fun p => p.1) := by
  unfold Exporter.setMetricsMap
  by_cases hm : m.isEmpty
  · simp [hm]
  · simp only [hm, if_false, Bool.false_eq_true]
    exact populate_frame e m

theorem Collect_state_frame (e : Exporter) (f : Option (List StatsEntry)) :
    (e.Collect f).1.serverType = e.serverType
    ∧ (e.Collect f).1.gaugeDefs = e.gaugeDefs
    ∧ (e.Collect f).1.counterVecDefs = e.counterVecDefs
    ∧ (e.Collect f).1.counterVecValues.map (fun p => p.1)
        = e.counterVecValues.map (fun p => p.1) := by
  show ((((e.scrape f).1.resetMetrics).setMetricsMap _).serverType = _) ∧ _
  obtain ⟨a1, _, _, a4, a5, a6⟩ :=
    setMetricsMap_frame ((e.scrape f).1.resetMetrics) (buildStatsMap (e.scrape f).2)
  have hscr :
      (e.scrape f).1.serverType = e.serverType
      ∧ (e.scrape f).1.gaugeDefs = e.gaugeDefs
      ∧ (e.scrape f).1.counterVecDefs = e.counterVecDefs
      ∧ (e.scrape f).1.counterVecValues = e.counterVecValues := by
    unfold Exporter.scrape
    cases f <;> simp
  have hres :
      (e.scrape f).1.resetMetrics.serverType = (e.scrape f).1.serverType
      ∧ (e.scrape f).1.resetMetrics.gaugeDefs = (e.scrape f).1.gaugeDefs
      ∧ (e.scrape f).1.resetMetrics.counterVecDefs = (e.scrape f).1.counterVecDefs
      ∧ (e.scrape f).1.resetMetrics.counterVecValues.map (fun p => p.1)
          = (e.scrape f).1.counterVecValues.map (fun p => p.1) := by
    simp [Exporter.resetMetrics, List.map_map]
  refine ⟨a1.trans (hres.1.trans hscr.1), a4.trans (hres.2.1.trans hscr.2.1),
    a5.trans (hres.2.2.1.trans hscr.2.2.1), a6.trans ?_⟩
  rw [hres.2.2.2, hscr.2.2.2]

/-! ### Claim C7: emission order -/

def Metric.isCounterSample : Metric → Bool
  | Metric.counterSample _ _ _ => true
  | _ => false

def Metric.isGaugeSample : Metric → Bool
  | Metric.gauge _ _ => true
  | _ => false

theorem all_isCounterSample (l : List (ℕ × List (String × ℚ))) :
    (l.flatMap (fun p => p.2.map (fun c => Metric.counterSample p.1 c.1 c.2))).all
      Metric.isCounterSample = true := by
  rw [List.all_eq_true]
  intro x hx
  rw [List.mem_flatMap] at hx
  obtain ⟨p, _, hx⟩ := hx
  rw [List.mem_map] at hx
  obtain ⟨c, _, rfl⟩ := hx
  rfl

theorem all_isGaugeSample (l : List (ℕ × ℚ)) :
    (l.map (fun p => Metric.gauge p.1 p.2)).all Metric.isGaugeSample = true := by
  rw [List.all_eq_true]
  intro x hx
  rw [List.mem_map] at hx
  obtain ⟨p, _, rfl⟩ := hx
  rfl

/-- Shape of the `collectMetrics` emission: counter samples, then gauges,
then an optional histogram present only for the recursor flavor. -/
theorem collectMetrics_shape (e : Exporter) (m : StatsMap) :
    ∃ cs gs hs, e.collectMetrics m = cs ++ gs ++ hs
      ∧ cs.all Metric.isCounterSample = true
      ∧ gs.all Metric.isGaugeSample = true
      ∧ (hs = [] ∨ ∃ h, hs = [Metric.histogram h])
      ∧ (¬ e.serverType = "recursor" → hs = []) := by
  refine ⟨_, _, _, rfl, all_isCounterSample _, all_isGaugeSample _, ?_, ?_⟩
  · by_cases hr : e.serverType = "recursor"
    · rw [if_pos hr]
      cases hmk : makeRecursorRTimeHistogram m with
      | some h => right; exact ⟨h, rfl⟩
      | none => left; rfl
    · left; rw [if_neg hr]
  · intro hr; rw [if_neg hr]

/-- Unfolding of the emitted stream of `Collect`. -/
theorem Collect_out (e : Exporter) (f : Option (List StatsEntry)) :
    (e.Collect f).2
      = Metric.up (e.Collect f).1.up
        :: Metric.totalScrapes (e.Collect f).1.totalScrapes
        :: Metric.jsonParseFailures (e.Collect f).1.jsonParseFailures
        :: (e.Collect f).1.collectMetrics (buildStatsMap (e.scrape f).2) := rfl

/-- C7: on every collection cycle over a successfully fetched stats
array, the metrics are emitted in the fixed order: health gauge first,
then the scrape counter, then the parse-failure counter, then all
counter-vector samples, then all gauges, then — only possible for the
recursor flavor — the optional histogram last. -/
theorem claimC7 (e : Exporter) (stats : List StatsEntry) :
    ∃ u t j cs gs hs,
      (e.Collect (some stats)).2
        = Metric.up u :: Metric.totalScrapes t :: Metric.jsonParseFailures j
            :: (cs ++ gs ++ hs)
      ∧ cs.all Metric.isCounterSample = true
      ∧ gs.all Metric.isGaugeSample = true
      ∧ (hs = [] ∨ ∃ h, hs = [Metric.histogram h])
      ∧ (¬ e.serverType = "recursor" → hs = []) := by
  obtain ⟨cs, gs, hs, hshape, hcs, hgs, hopt, hnr⟩ :=
    collectMetrics_shape (e.Collect (some stats)).1
      (buildStatsMap (e.scrape (some stats)).2)
  refine ⟨(e.Collect (some stats)).1.up, (e.Collect (some stats)).1.totalScrapes,
    (e.Collect (some stats)).1.jsonParseFailures, cs, gs, hs, ?_, hcs, hgs, hopt, ?_⟩
  · rw [Collect_out, hshape]
  · intro hr
    exact hnr (by rw [(Collect_state_frame e (some stats)).1]; exact hr)

/-! ### Claim C8: unknown server flavor -/

/-- C8: for any server flavor other than the three supported ones, the
constructed exporter has empty definition tables and empty instrument
sets, every collection cycle publishes exactly the three diagnostic
metrics, the instrument sets stay empty, and no error is raised
(construction and collection are total). -/
theorem claimC8 (s : String)
    (h1 : ¬ s = "recursor") (h2 : ¬ s = "authoritative") (h3 : ¬ s = "dnsdist") :
    (NewExporter s).gaugeDefs = []
    ∧ (NewExporter s).counterVecDefs = []
    ∧ (NewExporter s).gaugeValues = []
    ∧ (NewExporter s).counterVecValues = []
    ∧ ∀ fetched, ∃ u j,
        ((NewExporter s).Collect fetched).2
          = [Metric.up u, Metric.totalScrapes 1, Metric.jsonParseFailures j]
        ∧ ((NewExporter s).Collect fetched).1.gaugeValues = []
        ∧ ((NewExporter s).Collect fetched).1.counterVecValues = [] := by
  have hreg : registryFor s = ([], []) := by
    simp [registryFor, h1, h2, h3]
  have hga : (NewExporter s).gaugeDefs = [] := by simp [NewExporter, hreg]
  have hca : (NewExporter s).counterVecDefs = [] := by simp [NewExporter, hreg]
  have hgv : (NewExporter s).gaugeValues = [] := by simp [NewExporter, hreg]
  have hcv : (NewExporter s).counterVecValues = [] := by simp [NewExporter, hreg]
  refine ⟨hga, hca, hgv, hcv, ?_⟩
  intro fetched
  have hsrv : (NewExporter s).serverType = s := rfl
  -- the scraped state keeps the empty instrument sets and definitions
  have hstate : ∀ f, (((NewExporter s).scrape f).1.resetMetrics).gaugeDefs = []
      ∧ (((NewExporter s).scrape f).1.resetMetrics).counterVecDefs = []
      ∧ (((NewExporter s).scrape f).1.resetMetrics).gaugeValues = []
      ∧ (((NewExporter s).scrape f).1.resetMetrics).counterVecValues = []
      ∧ (((NewExporter s).scrape f).1.resetMetrics).serverType = s := by
    intro f
    cases f <;>
      simp [Exporter.scrape, Exporter.resetMetrics, hga, hca, hgv, hcv, hsrv]
  obtain ⟨k1, k2, k3, k4, k5⟩ := hstate fetched
  have hpop : ∀ m, (((NewExporter s).scrape fetched).1.resetMetrics).setMetricsMap m
      = ((NewExporter s).scrape fetched).1.resetMetrics := by
    intro m
    unfold Exporter.setMetricsMap Exporter.populate
    rw [k1, k2]
    simp
  have hfinal : ((NewExporter s).Collect fetched).1
      = ((NewExporter s).scrape fetched).1.resetMetrics := by
    show (((NewExporter s).scrape fetched).1.resetMetrics).setMetricsMap _ = _
    exact hpop _
  refine ⟨((NewExporter s).Collect fetched).1.up,
    ((NewExporter s).Collect fetched).1.jsonParseFailures, ?_, ?_, ?_⟩
  · rw [Collect_out]
    have hts : ((NewExporter s).Collect fetched).1.totalScrapes = 1 := by
      rw [hfinal]
      cases fetched <;> simp [Exporter.scrape, Exporter.resetMetrics, NewExporter]
    rw [hts]
    have hcm : ((NewExporter s).Collect fetched).1.collectMetrics
        (buildStatsMap ((NewExporter s).scrape fetched).2) = [] := by
      rw [hfinal]
      unfold Exporter.collectMetrics
      rw [k4, k3, if_neg (by rw [k5]; exact h1)]
      simp
    rw [hcm]
  · rw [hfinal]; exact k3
  · rw [hfinal]; exact k4

/-- C8 witness: the flavor string `"dontexist"` yields an exporter with
empty registries whose first cycle over a one-entry stats array publishes
exactly the three diagnostic metrics. -/
theorem claimC8_witness :
    (NewExporter "dontexist").gaugeDefs = []
    ∧ (NewExporter "dontexist").counterVecDefs = []
    ∧ (NewExporter "dontexist").gaugeValues = []
    ∧ (NewExporter "dontexist").counterVecValues = []
    ∧ ∀ fetched, ∃ u j,
        ((NewExporter "dontexist").Collect fetched).2
          = [Metric.up u, Metric.totalScrapes 1, Metric.jsonParseFailures j]
        ∧ ((NewExporter "dontexist").Collect fetched).1.gaugeValues = []
        ∧ ((NewExporter "dontexist").Collect fetched).1.counterVecValues = [] :=
  claimC8 "dontexist" (by decide) (by decide) (by decide)

/-! ### Claim C6: histogram failure only omits the histogram -/

/-- C6: a snapshot missing any of the five response-time bucket keys
makes `makeRecursorRTimeHistogram` fail, and on a recursor exporter the
only difference this makes to the published stream is the omission of the
final histogram: every other emitted metric is exactly what it would be
with a histogram-producing snapshot, and nothing emitted on the failing
path is a histogram (the cycle itself still completes). -/
theorem claimC6 (e : Exporter) (m m2 : StatsMap) (hist : ConstHistogram)
    (hsrv : e.serverType = "recursor")
    (hmiss : ∃ kv ∈ rTimeBucketMap, assocFind m kv.1 = none)
    (hok : makeRecursorRTimeHistogram m2 = some hist) :
    makeRecursorRTimeHistogram m = none
    ∧ e.collectMetrics m2 = e.collectMetrics m ++ [Metric.histogram hist]
    ∧ ∀ x ∈ e.collectMetrics m, ∀ h2, ¬ x = Metric.histogram h2 := by
  obtain ⟨kv, hkv, hfind⟩ := hmiss
  have hnone : makeRecursorRTimeHistogram m = none := by
    unfold makeRecursorRTimeHistogram
    rw [if_neg]
    intro hall
    have := List.all_eq_true.mp hall kv hkv
    rw [hfind] at this
    exact absurd this (by decide)
  refine ⟨hnone, ?_, ?_⟩
  · unfold Exporter.collectMetrics
    rw [if_pos hsrv, if_pos hsrv, hnone, hok]
    simp
  · intro x hx h2 hx2
    subst hx2
    unfold Exporter.collectMetrics at hx
    rw [if_pos hsrv, hnone] at hx
    simp only [List.append_nil, List.mem_append] at hx
    rcases hx with hx | hx
    · rw [List.mem_flatMap] at hx
      obtain ⟨p, _, hx⟩ := hx
      rw [List.mem_map] at hx
      obtain ⟨c, _, hc⟩ := hx
      exact absurd hc (by intro hh; cases hh)
    · rw [List.mem_map] at hx
      obtain ⟨p, _, hc⟩ := hx
      exact absurd hc (by intro hh; cases hh)

/-- C6 witness: the theorem applied to the empty snapshot (all five keys
missing) against the documented `[1,10,100,1000,0]` snapshot on a fresh
recursor exporter. -/
theorem claimC6_witness :
    makeRecursorRTimeHistogram ([] : StatsMap) = none
    ∧ (NewExporter "recursor").collectMetrics
        [("answers0-1", 1), ("answers1-10", 10), ("answers10-100", 100),
         ("answers100-1000", 1000), ("answers-slow", 0)]
      = (NewExporter "recursor").collectMetrics []
          ++ [Metric.histogram ⟨1111, 0, [(mkRat 1 1000, 1), (mkRat 1 100, 11),
                (mkRat 1 10, 111), (1, 1111)]⟩] := by
  have h := claimC6 (NewExporter "recursor") []
    [("answers0-1", 1), ("answers1-10", 10), ("answers10-100", 100),
     ("answers100-1000", 1000), ("answers-slow", 0)]
    ⟨1111, 0, [(mkRat 1 1000, 1), (mkRat 1 100, 11), (mkRat 1 10, 111), (1, 1111)]⟩
    rfl (by decide) (by decide)
  exact ⟨h.1, h.2.1⟩

/-! ### Claim C4: latency unit conversion -/

theorem gaugeValues_foldl_applyGaugeDef_of_ne (m : StatsMap) (gds : List gaugeDefinition) :
    ∀ (e : Exporter) (i : ℕ), (∀ d ∈ gds, ¬ d.id = i) →
      assocFind (gds.foldl (applyGaugeDef m) e).gaugeValues i
        = assocFind e.gaugeValues i := by
  induction gds with
  | nil => intro e i _; rfl
  | cons d t ih =>
      intro e i h
      simp only [List.foldl_cons]
      rw [ih _ i (fun d' hd' => h d' (List.mem_cons_of_mem d hd'))]
      unfold applyGaugeDef
      cases assocFind m d.key with
      | some v =>
          show assocFind (assocReplace e.gaugeValues d.id _) i = _
          rw [assocFind_assocReplace,
            if_neg (fun hh => h d (List.mem_cons_self d t) hh.symm)]
      | none => rfl

theorem gaugeValues_foldl_applyGaugeDef (m : StatsMap) (gds : List gaugeDefinition) :
    ∀ (e : Exporter) (d : gaugeDefinition), d ∈ gds →
      (gds.map (fun d => d.id)).Nodup →
      assocFind (gds.foldl (applyGaugeDef m) e).gaugeValues d.id
        = match assocFind m d.key with
          | some v => (assocFind e.gaugeValues d.id).map
              (fun _ => if goHasSuffix d.key "latency" then v / 1000000 else v)
          | none => assocFind e.gaugeValues d.id := by
  induction gds with
  | nil => intro e d hd; exact absurd hd (List.not_mem_nil d)
  | cons d0 t ih =>
      intro e d hd hnd
      simp only [List.map_cons, List.nodup_cons] at hnd
      simp only [List.foldl_cons]
      rcases List.mem_cons.mp hd with h0 | hmem
      · subst h0
        have hrest : ∀ d' ∈ t, ¬ d'.id = d.id := by
          intro d' hd' hh
          exact hnd.1 (hh ▸ List.mem_map_of_mem (fun d => d.id) hd')
        rw [gaugeValues_foldl_applyGaugeDef_of_ne m t _ d.id hrest]
        unfold applyGaugeDef
        cases hf : assocFind m d.key with
        | some v =>
            show assocFind (assocReplace e.gaugeValues d.id _) d.id = _
            rw [assocFind_assocReplace, if_pos rfl]
        | none => rfl
      · have hne : ¬ d0.id = d.id := by
          intro hh
          exact hnd.1 (hh ▸ List.mem_map_of_mem (fun d => d.id) hmem)
        rw [ih _ d hmem hnd.2]
        have hbase : assocFind (applyGaugeDef m e d0).gaugeValues d.id
            = assocFind e.gaugeValues d.id := by
          unfold applyGaugeDef
          cases assocFind m d0.key with
          | some v =>
              show assocFind (assocReplace e.gaugeValues d0.id _) d.id = _
              rw [assocFind_assocReplace, if_neg (fun hh => hne hh.symm)]
          | none => rfl
        cases assocFind m d.key <;> rw [hbase]

/-- Gauge-value characterisation of the populate phase: for a definition
`d` of the bound registry (ids distinct), a present source key sets the
gauge to the (latency-converted) raw value and an absent key leaves the
gauge untouched. -/
theorem gaugeValue_populate (e : Exporter) (m : StatsMap) (d : gaugeDefinition)
    (hd : d ∈ e.gaugeDefs) (hnd : (e.gaugeDefs.map (fun d => d.id)).Nodup) :
    (e.populate m).gaugeValue d.id
      = match assocFind m d.key with
        | some v => (e.gaugeValue d.id).map
            (fun _ => if goHasSuffix d.key "latency" then v / 1000000 else v)
        | none => e.gaugeValue d.id := by
  unfold Exporter.populate Exporter.gaugeValue
  have hcf := (foldl_applyCounterDef_frame m e.counterVecDefs
    (e.gaugeDefs.foldl (applyGaugeDef m) e)).2.2.2.1
  rw [hcf]
  exact gaugeValues_foldl_applyGaugeDef m e.gaugeDefs e d hd hnd

theorem isEmpty_eq_false_of_find_isSome (l : StatsMap) (k : String)
    (h : (assocFind l k).isSome) : l.isEmpty = false := by
  cases l with
  | nil => rw [assocFind_nil] at h; exact absurd h (by decide)
  | cons p t => rfl

/-- C4: for every gauge definition of a registry with distinct ids whose
source key is present in the snapshot, the populate phase sets the gauge
to the raw value divided by 1000000 when the key ends in `latency`, and
to the raw value unchanged otherwise. -/
theorem claimC4 (e : Exporter) (d : gaugeDefinition) (stats : List StatsEntry) (v w : ℚ)
    (hnd : (e.gaugeDefs.map (fun d => d.id)).Nodup)
    (hd : d ∈ e.gaugeDefs)
    (hv : assocFind (buildStatsMap stats) d.key = some v)
    (hw : e.gaugeValue d.id = some w) :
    (e.setMetrics stats).1.gaugeValue d.id
      = some (if goHasSuffix d.key "latency" then v / 1000000 else v) := by
  show (e.setMetricsMap (buildStatsMap stats)).gaugeValue d.id = _
  unfold Exporter.setMetricsMap
  rw [isEmpty_eq_false_of_find_isSome _ d.key (by rw [hv]; rfl)]
  simp only [Bool.false_eq_true, if_false]
  rw [gaugeValue_populate e _ d hd hnd, hv, hw]
  rfl

theorem latencyMicrosExample : (5000000 : ℚ) / 1000000 = 5 := by norm_num

/-- C4 witness: the recursor latency gauge (`qa-latency`, id 1) over a
stats array carrying the raw value 5000000 is exported as 5. -/
theorem claimC4_witness :
    ((NewExporter "recursor").setMetrics
        [⟨"qa-latency", "absolute", 5000000⟩]).1.gaugeValue 1 = some 5 := by
  have h := claimC4 (NewExporter "recursor")
    ⟨1, "latency_average_seconds",
      "Exponential moving average of question-to-answer latency.", "qa-latency"⟩
    [⟨"qa-latency", "absolute", 5000000⟩] 5000000 0
    (by decide) (by decide) (by decide) (by decide)
  rw [h, if_pos (by decide), latencyMicrosExample]

/-! ### Claim C5: reset-then-repopulate is deterministic -/

theorem cvv_applyCounterEntry_congr (m : StatsMap) (i : ℕ) (kv : String × String)
    (e e' : Exporter) (h : e.counterVecValues = e'.counterVecValues) :
    (applyCounterEntry m i e kv).counterVecValues
      = (applyCounterEntry m i e' kv).counterVecValues := by
  unfold applyCounterEntry
  cases assocFind m kv.1 with
  | some v => show (e.setCounterValue i kv.2 v).counterVecValues = _
              simp [Exporter.setCounterValue, h]
  | none => simpa [Exporter.incParseFailures] using h

theorem cvv_foldl_applyCounterEntry_congr (m : StatsMap) (i : ℕ)
    (lm : List (String × String)) :
    ∀ (e e' : Exporter), e.counterVecValues = e'.counterVecValues →
      (lm.foldl (applyCounterEntry m i) e).counterVecValues
        = (lm.foldl (applyCounterEntry m i) e').counterVecValues := by
  induction lm with
  | nil => intro e e' h; exact h
  | cons kv t ih =>
      intro e e' h
      simp only [List.foldl_cons]
      exact ih _ _ (cvv_applyCounterEntry_congr m i kv e e' h)

theorem cvv_foldl_applyCounterDef_congr (m : StatsMap)
    (cds : List counterVecDefinition) :
    ∀ (e e' : Exporter), e.counterVecValues = e'.counterVecValues →
      (cds.foldl (applyCounterDef m) e).counterVecValues
        = (cds.foldl (applyCounterDef m) e').counterVecValues := by
  induction cds with
  | nil => intro e e' h; exact h
  | cons d t ih =>
      intro e e' h
      simp only [List.foldl_cons]
      exact ih _ _ (cvv_foldl_applyCounterEntry_congr m d.id d.labelMap e e' h)

/-- The counter-vector values after `populate` depend only on the
definition tables, the snapshot, and the prior counter-vector values. -/
theorem cvv_populate_congr (m : StatsMap) (e e' : Exporter)
    (hv : e.counterVecValues = e'.counterVecValues)
    (hd : e.counterVecDefs = e'.counterVecDefs) :
    (e.populate m).counterVecValues = (e'.populate m).counterVecValues := by
  unfold Exporter.populate
  rw [hd]
  refine cvv_foldl_applyCounterDef_congr m e'.counterVecDefs _ _ ?_
  rw [(foldl_applyGaugeDef_frame m e.gaugeDefs e).2.2.2.1,
    (foldl_applyGaugeDef_frame m e'.gaugeDefs e').2.2.2.1]
  exact hv

theorem cvv_setMetricsMap_congr (m : StatsMap) (e e' : Exporter)
    (hv : e.counterVecValues = e'.counterVecValues)
    (hd : e.counterVecDefs = e'.counterVecDefs) :
    (e.setMetricsMap m).counterVecValues = (e'.setMetricsMap m).counterVecValues := by
  unfold Exporter.setMetricsMap
  by_cases hm : m.isEmpty
  · simp [hm, hv]
  · simp only [hm, Bool.false_eq_true, if_false]
    exact cvv_populate_congr m e e' hv hd

theorem zeroOut_congr (l l' : List (ℕ × List (String × ℚ)))
    (h : l.map (fun p => p.1) = l'.map (fun p => p.1)) :
    l.map (fun p => (p.1, ([] : List (String × ℚ))))
      = l'.map (fun p => (p.1, ([] : List (String × ℚ)))) := by
  induction l generalizing l' with
  | nil => cases l' with
      | nil => rfl
      | cons q s => simp at h
  | cons p t ih =>
      cases l' with
      | nil => simp at h
      | cons q s =>
          simp only [List.map_cons, List.cons.injEq] at h ⊢
          exact ⟨by rw [h.1], ih s h.2⟩

/-- C5: two consecutive collection cycles over the same fetch outcome
leave the counter-vector instruments with identical children: the
reset-then-repopulate sequence is deterministic, not additive. -/
theorem claimC5 (e : Exporter) (fetched : Option (List StatsEntry)) :
    ((e.Collect fetched).1.Collect fetched).1.counterVecValues
      = (e.Collect fetched).1.counterVecValues := by
  have hC : ∀ x : Exporter, (x.Collect fetched).1
      = ((x.scrape fetched).1.resetMetrics).setMetricsMap
          (buildStatsMap (x.scrape fetched).2) := fun x => rfl
  have hdata : ∀ x : Exporter, (x.scrape fetched).2 = (e.scrape fetched).2 := by
    intro x; cases fetched <;> rfl
  have hscvv : ∀ x : Exporter, (x.scrape fetched).1.counterVecValues
      = x.counterVecValues := by
    intro x; cases fetched <;> rfl
  have hscd : ∀ x : Exporter, (x.scrape fetched).1.counterVecDefs
      = x.counterVecDefs := by
    intro x; cases fetched <;> rfl
  rw [hC (e.Collect fetched).1, hdata]
  rw [hC e]
  have hrd : ∀ x : Exporter, x.resetMetrics.counterVecDefs = x.counterVecDefs :=
    fun _ => rfl
  have hrv : ∀ x : Exporter, x.resetMetrics.counterVecValues
      = x.counterVecValues.map (fun p => (p.1, [])) := fun _ => rfl
  apply cvv_setMetricsMap_congr
  · rw [hrv, hrv, hscvv, hscvv]
    exact zeroOut_congr _ _ (Collect_state_frame e fetched).2.2.2
  · rw [hrd, hrd, hscd, hscd]
    exact (Collect_state_frame e fetched).2.2.1

/-! ### Claim C3: parse-failure accounting -/

theorem jPF_foldl_applyGaugeDef (m : StatsMap) (gds : List gaugeDefinition) :
    ∀ e : Exporter,
      (gds.foldl (applyGaugeDef m) e).jsonParseFailures
        = e.jsonParseFailures
          + (gds.filter (fun d => (assocFind m d.key).isNone)).length := by
  induction gds with
  | nil => intro e; simp
  | cons d t ih =>
      intro e
      rw [List.foldl_cons, ih]
      cases hf : assocFind m d.key with
      | some v =>
          have hstep : (applyGaugeDef m e d).jsonParseFailures = e.jsonParseFailures := by
            unfold applyGaugeDef
            rw [hf]
            rfl
          rw [hstep, List.filter_cons]
          simp [hf]
      | none =>
          have hstep : (applyGaugeDef m e d).jsonParseFailures
              = e.jsonParseFailures + 1 := by
            unfold applyGaugeDef
            rw [hf]
            rfl
          rw [hstep, List.filter_cons]
          simp only [hf, Option.isNone_none, if_pos, List.length_cons]
          omega

theorem jPF_foldl_applyCounterEntry (m : StatsMap) (i : ℕ) (lm : List (String × String)) :
    ∀ e : Exporter,
      (lm.foldl (applyCounterEntry m i) e).jsonParseFailures
        = e.jsonParseFailures
          + (lm.filter (fun kv => (assocFind m kv.1).isNone)).length := by
  induction lm with
  | nil => intro e; simp
  | cons kv t ih =>
      intro e
      rw [List.foldl_cons, ih]
      cases hf : assocFind m kv.1 with
      | some v =>
          have hstep : (applyCounterEntry m i e kv).jsonParseFailures
              = e.jsonParseFailures := by
            unfold applyCounterEntry
            rw [hf]
            rfl
          rw [hstep, List.filter_cons]
          simp [hf]
      | none =>
          have hstep : (applyCounterEntry m i e kv).jsonParseFailures
              = e.jsonParseFailures + 1 := by
            unfold applyCounterEntry
            rw [hf]
            rfl
          rw [hstep, List.filter_cons]
          simp only [hf, Option.isNone_none, if_pos, List.length_cons]
          omega

theorem jPF_foldl_applyCounterDef (m : StatsMap) (cds : List counterVecDefinition) :
    ∀ e : Exporter,
      (cds.foldl (applyCounterDef m) e).jsonParseFailures
        = e.jsonParseFailures
          + (cds.map (fun d =>
              (d.labelMap.filter (fun kv => (assocFind m kv.1).isNone)).length)).sum := by
  induction cds with
  | nil => intro e; simp
  | cons d t ih =>
      intro e
      rw [List.foldl_cons, ih]
      have hstep : (applyCounterDef m e d).jsonParseFailures
          = e.jsonParseFailures
            + (d.labelMap.filter (fun kv => (assocFind m kv.1).isNone)).length :=
        jPF_foldl_applyCounterEntry m d.id d.labelMap e
      rw [hstep, List.map_cons, List.sum_cons]
      omega

/-- Parse-failure accounting for one populate phase: the parse-failure
counter grows by exactly the number of gauge definitions plus labelMap
entries whose source key is missing from the snapshot. -/
theorem jPF_populate (e : Exporter) (m : StatsMap) :
    (e.populate m).jsonParseFailures
      = e.jsonParseFailures
        + (e.gaugeDefs.filter (fun d => (assocFind m d.key).isNone)).length
        + (e.counterVecDefs.map (fun d =>
            (d.labelMap.filter (fun kv => (assocFind m kv.1).isNone)).length)).sum := by
  unfold Exporter.populate
  rw [jPF_foldl_applyCounterDef, jPF_foldl_applyGaugeDef]

/-! Counter-value characterisation lemmas for the populate phase. -/

theorem assocFind_cvv_update (l : List (ℕ × List (String × ℚ))) (i j : ℕ)
    (label : String) (v : ℚ) :
    assocFind (l.map (fun p => if p.1 = i then (p.1, assocSet p.2 label v) else p)) j
      = if j = i then (assocFind l i).map (fun ch => assocSet ch label v)
        else assocFind l j := by
  induction l with
  | nil => by_cases hj : j = i <;> simp [assocFind, hj]
  | cons p t ih =>
      by_cases hp : p.1 = i
      · by_cases hj : j = i
        · subst hj
          simp [assocFind_cons, hp, ih]
        · have hij : ¬ i = j := fun hh => hj hh.symm
          have hpj : ¬ p.1 = j := fun hh => hj (hh.symm.trans hp)
          simp [assocFind_cons, hp, hpj, ih, hj, hij]
      · by_cases hpj : p.1 = j
        · have hj : ¬ j = i := fun hh => hp (hpj.trans hh)
          simp [assocFind_cons, hp, hpj, hj]
        · simp [assocFind_cons, hp, hpj, ih]

theorem cvv_setCounterValue (e : Exporter) (i : ℕ) (label : String) (v : ℚ) :
    (e.setCounterValue i label v).counterVecValues
      = e.counterVecValues.map
          (fun p => if p.1 = i then (p.1, assocSet p.2 label v) else p) := rfl

theorem counterValue_setCounterValue_self (e : Exporter) (i : ℕ) (label : String) (v : ℚ) :
    (e.setCounterValue i label v).counterValue i label
      = if (assocFind e.counterVecValues i).isSome then some v else none := by
  unfold Exporter.counterValue
  rw [cvv_setCounterValue, assocFind_cvv_update, if_pos rfl]
  cases assocFind e.counterVecValues i with
  | some ch => simp [assocFind_assocSet]
  | none => simp

theorem counterValue_setCounterValue_otherLabel (e : Exporter) (i : ℕ)
    (label l0 : String) (v : ℚ) (h : ¬ l0 = label) :
    (e.setCounterValue i l0 v).counterValue i label = e.counterValue i label := by
  unfold Exporter.counterValue
  rw [cvv_setCounterValue, assocFind_cvv_update, if_pos rfl]
  cases assocFind e.counterVecValues i with
  | some ch =>
      show assocFind (assocSet ch l0 v) label = assocFind ch label
      rw [assocFind_assocSet, if_neg (fun hh => h hh.symm)]
  | none => simp

theorem counterValue_setCounterValue_otherId (e : Exporter) (i0 i : ℕ)
    (label l0 : String) (v : ℚ) (h : ¬ i0 = i) :
    (e.setCounterValue i0 l0 v).counterValue i label = e.counterValue i label := by
  unfold Exporter.counterValue
  rw [cvv_setCounterValue, assocFind_cvv_update, if_neg (fun hh => h hh.symm)]

theorem isSome_cvv_setCounterValue (e : Exporter) (i0 i : ℕ) (l0 : String) (v : ℚ) :
    (assocFind (e.setCounterValue i0 l0 v).counterVecValues i).isSome
      = (assocFind e.counterVecValues i).isSome := by
  rw [cvv_setCounterValue, assocFind_cvv_update]
  by_cases hi : i = i0
  · subst hi
    rw [if_pos rfl]
    cases assocFind e.counterVecValues i <;> rfl
  · rw [if_neg hi]

theorem counterValue_applyCounterEntry_otherLabel (m : StatsMap) (i : ℕ)
    (e : Exporter) (kv : String × String) (label : String) (h : ¬ kv.2 = label) :
    (applyCounterEntry m i e kv).counterValue i label = e.counterValue i label := by
  unfold applyCounterEntry
  cases assocFind m kv.1 with
  | some v => exact counterValue_setCounterValue_otherLabel e i label kv.2 v h
  | none => rfl

theorem counterValue_applyCounterEntry_otherId (m : StatsMap) (i0 : ℕ)
    (e : Exporter) (kv : String × String) (i : ℕ) (label : String) (h : ¬ i0 = i) :
    (applyCounterEntry m i0 e kv).counterValue i label = e.counterValue i label := by
  unfold applyCounterEntry
  cases assocFind m kv.1 with
  | some v => exact counterValue_setCounterValue_otherId e i0 i label kv.2 v h
  | none => rfl

theorem isSome_cvv_applyCounterEntry (m : StatsMap) (i0 : ℕ) (e : Exporter)
    (kv : String × String) (i : ℕ) :
    (assocFind (applyCounterEntry m i0 e kv).counterVecValues i).isSome
      = (assocFind e.counterVecValues i).isSome := by
  unfold applyCounterEntry
  cases assocFind m kv.1 with
  | some v => exact isSome_cvv_setCounterValue e i0 i kv.2 v
  | none => rfl

theorem counterValue_foldl_applyCounterEntry_otherLabel (m : StatsMap) (i : ℕ)
    (lm : List (String × String)) :
    ∀ (e : Exporter) (label : String), (∀ kv ∈ lm, ¬ kv.2 = label) →
      (lm.foldl (applyCounterEntry m i) e).counterValue i label
        = e.counterValue i label := by
  induction lm with
  | nil => intro e label _; rfl
  | cons kv t ih =>
      intro e label h
      rw [List.foldl_cons,
        ih _ label (fun kv' h' => h kv' (List.mem_cons_of_mem kv h')),
        counterValue_applyCounterEntry_otherLabel m i e kv label
          (h kv (List.mem_cons_self kv t))]

theorem counterValue_foldl_applyCounterEntry_otherId (m : StatsMap) (i0 : ℕ)
    (lm : List (String × String)) :
    ∀ (e : Exporter) (i : ℕ) (label : String), ¬ i0 = i →
      (lm.foldl (applyCounterEntry m i0) e).counterValue i label
        = e.counterValue i label := by
  induction lm with
  | nil => intro e i label _; rfl
  | cons kv t ih =>
      intro e i label h
      rw [List.foldl_cons, ih _ i label h,
        counterValue_applyCounterEntry_otherId m i0 e kv i label h]

theorem counterValue_foldl_applyCounterEntry (m : StatsMap) (i : ℕ)
    (lm : List (String × String)) :
    ∀ (e : Exporter) (kv : String × String), kv ∈ lm →
      (lm.map (fun kv => kv.2)).Nodup →
      (lm.foldl (applyCounterEntry m i) e).counterValue i kv.2
        = match assocFind m kv.1 with
          | some v => if (assocFind e.counterVecValues i).isSome then some v else none
          | none => e.counterValue i kv.2 := by
  induction lm with
  | nil => intro e kv hkv; exact absurd hkv (List.not_mem_nil kv)
  | cons kv0 t ih =>
      intro e kv hkv hnd
      simp only [List.map_cons, List.nodup_cons] at hnd
      rcases List.mem_cons.mp hkv with h0 | hmem
      · subst h0
        rw [List.foldl_cons]
        have hrest : ∀ kv' ∈ t, ¬ kv'.2 = kv.2 := by
          intro kv' h' hh
          exact hnd.1 (hh ▸ List.mem_map_of_mem (fun kv => kv.2) h')
        rw [counterValue_foldl_applyCounterEntry_otherLabel m i t _ kv.2 hrest]
        unfold applyCounterEntry
        cases hf : assocFind m kv.1 with
        | some v => exact counterValue_setCounterValue_self e i kv.2 v
        | none => rfl
      · have hne : ¬ kv0.2 = kv.2 := by
          intro hh
          exact hnd.1 (hh ▸ List.mem_map_of_mem (fun kv => kv.2) hmem)
        rw [List.foldl_cons, ih _ kv hmem hnd.2]
        have h1 : (applyCounterEntry m i e kv0).counterValue i kv.2
            = e.counterValue i kv.2 :=
          counterValue_applyCounterEntry_otherLabel m i e kv0 kv.2 hne
        have h2 : (assocFind (applyCounterEntry m i e kv0).counterVecValues i).isSome
            = (assocFind e.counterVecValues i).isSome :=
          isSome_cvv_applyCounterEntry m i e kv0 i
        cases hf : assocFind m kv.1 with
        | some v => rw [h2]
        | none => rw [h1]

theorem counterValue_foldl_applyCounterDef_otherId (m : StatsMap)
    (cds : List counterVecDefinition) :
    ∀ (e : Exporter) (i : ℕ) (label : String), (∀ d ∈ cds, ¬ d.id = i) →
      (cds.foldl (applyCounterDef m) e).counterValue i label
        = e.counterValue i label := by
  induction cds with
  | nil => intro e i label _; rfl
  | cons d t ih =>
      intro e i label h
      rw [List.foldl_cons, ih _ i label (fun d' h' => h d' (List.mem_cons_of_mem d h'))]
      exact counterValue_foldl_applyCounterEntry_otherId m d.id d.labelMap e i label
        (h d (List.mem_cons_self d t))

theorem counterValue_foldl_applyCounterDef (m : StatsMap)
    (cds : List counterVecDefinition) :
    ∀ (e : Exporter) (d : counterVecDefinition) (kv : String × String),
      d ∈ cds → kv ∈ d.labelMap →
      (cds.map (fun d => d.id)).Nodup →
      (d.labelMap.map (fun kv => kv.2)).Nodup →
      (cds.foldl (applyCounterDef m) e).counterValue d.id kv.2
        = match assocFind m kv.1 with
          | some v =>
              if (assocFind e.counterVecValues d.id).isSome then some v else none
          | none => e.counterValue d.id kv.2 := by
  induction cds with
  | nil => intro e d kv hd; exact absurd hd (List.not_mem_nil d)
  | cons d0 t ih =>
      intro e d kv hd hkv hnd hlnd
      simp only [List.map_cons, List.nodup_cons] at hnd
      rcases List.mem_cons.mp hd with h0 | hmem
      · subst h0
        rw [List.foldl_cons]
        have hrest : ∀ d' ∈ t, ¬ d'.id = d.id := by
          intro d' h' hh
          exact hnd.1 (hh ▸ List.mem_map_of_mem (fun d => d.id) h')
        rw [counterValue_foldl_applyCounterDef_otherId m t _ d.id kv.2 hrest]
        exact counterValue_foldl_applyCounterEntry m d.id d.labelMap e kv hkv hlnd
      · have hne : ¬ d0.id = d.id := by
          intro hh
          exact hnd.1 (hh ▸ List.mem_map_of_mem (fun d => d.id) hmem)
        rw [List.foldl_cons, ih _ d kv hmem hkv hnd.2 hlnd]
        have h1 : (applyCounterDef m e d0).counterValue d.id kv.2
            = e.counterValue d.id kv.2 :=
          counterValue_foldl_applyCounterEntry_otherId m d0.id d0.labelMap e d.id kv.2 hne
        have h2 : (assocFind (applyCounterDef m e d0).counterVecValues d.id).isSome
            = (assocFind e.counterVecValues d.id).isSome :=
          isSome_assocFind_of_keys_eq _ _
            (foldl_applyCounterEntry_frame m d0.id d0.labelMap e).2.2.2.2.2.2 d.id
        cases hf : assocFind m kv.1 with
        | some v => rw [h2]
        | none => rw [h1]

/-- Counter-value characterisation of the populate phase: for a labelMap
entry `kv` of definition `d` of a registry with distinct ids and distinct
label values, a present source key sets the child to the raw value and an
absent key leaves the child untouched. -/
theorem counterValue_populate (e : Exporter) (m : StatsMap)
    (d : counterVecDefinition) (kv : String × String)
    (hd : d ∈ e.counterVecDefs) (hkv : kv ∈ d.labelMap)
    (hcnd : (e.counterVecDefs.map (fun d => d.id)).Nodup)
    (hlnd : (d.labelMap.map (fun kv => kv.2)).Nodup) :
    (e.populate m).counterValue d.id kv.2
      = match assocFind m kv.1 with
        | some v =>
            if (assocFind e.counterVecValues d.id).isSome then some v else none
        | none => e.counterValue d.id kv.2 := by
  unfold Exporter.populate
  rw [counterValue_foldl_applyCounterDef m e.counterVecDefs _ d kv hd hkv hcnd hlnd]
  have hg := (foldl_applyGaugeDef_frame m e.gaugeDefs e).2.2.2.1
  cases hf : assocFind m kv.1 with
  | some v => rw [hg]
  | none =>
      show (match assocFind (e.gaugeDefs.foldl (applyGaugeDef m) e).counterVecValues d.id with
        | some children => assocFind children kv.2
        | none => none) = _
      rw [hg]
      rfl

theorem isNone_eq_false_of_isSome (o : Option ℚ) (h : o.isSome = true) :
    o.isNone = false := by
  cases o with
  | none => exact absurd h (by decide)
  | some v => rfl

/-- Core of C3 over an arbitrary registry with distinct gauge ids,
distinct counter ids and per-definition distinct label values (all of
which hold for every registry of this program): removing one raw key from
a complete snapshot raises the parse-failure counter by exactly the
number of registry references to that key and leaves every instrument not
derived from that key unchanged relative to the complete-snapshot run. -/
theorem setMetricsMap_removeKey (e : Exporter) (S : StatsMap) (k : String)
    (hgnd : (e.gaugeDefs.map (fun d => d.id)).Nodup)
    (hcnd : (e.counterVecDefs.map (fun d => d.id)).Nodup)
    (hlnd : ∀ d ∈ e.counterVecDefs, (d.labelMap.map (fun kv => kv.2)).Nodup)
    (hSg : ∀ d ∈ e.gaugeDefs, (assocFind S d.key).isSome = true)
    (hSc : ∀ d ∈ e.counterVecDefs, ∀ kv ∈ d.labelMap, (assocFind S kv.1).isSome = true)
    (hne : (assocErase S k).isEmpty = false) :
    (e.setMetricsMap (assocErase S k)).jsonParseFailures
        = (e.setMetricsMap S).jsonParseFailures
          + refCount e.gaugeDefs e.counterVecDefs k
    ∧ (∀ d ∈ e.gaugeDefs, ¬ d.key = k →
        (e.setMetricsMap (assocErase S k)).gaugeValue d.id
          = (e.setMetricsMap S).gaugeValue d.id)
    ∧ (∀ d ∈ e.counterVecDefs, ∀ kv ∈ d.labelMap, ¬ kv.1 = k →
        (e.setMetricsMap (assocErase S k)).counterValue d.id kv.2
          = (e.setMetricsMap S).counterValue d.id kv.2) := by
  have hSne : S.isEmpty = false := by
    cases S with
    | nil => rw [show assocErase ([] : StatsMap) k = [] from rfl] at hne
             exact absurd hne (by decide)
    | cons p t => rfl
  have hsm1 : e.setMetricsMap (assocErase S k) = e.populate (assocErase S k) := by
    unfold Exporter.setMetricsMap
    rw [hne]
    simp
  have hsm2 : e.setMetricsMap S = e.populate S := by
    unfold Exporter.setMetricsMap
    rw [hSne]
    simp
  refine ⟨?_, ?_, ?_⟩
  · rw [hsm1, hsm2, jPF_populate, jPF_populate]
    have hA : (e.gaugeDefs.filter (fun d => (assocFind S d.key).isNone)).length = 0 := by
      rw [List.length_eq_zero, List.filter_eq_nil_iff]
      intro d hd
      rw [isNone_eq_false_of_isSome _ (hSg d hd)]
      simp
    have hB : (e.counterVecDefs.map (fun d =>
        (d.labelMap.filter (fun kv => (assocFind S kv.1).isNone)).length)).sum = 0 := by
      apply List.sum_eq_zero
      intro x hx
      rw [List.mem_map] at hx
      obtain ⟨d, hd, rfl⟩ := hx
      rw [List.length_eq_zero, List.filter_eq_nil_iff]
      intro kv hkv
      rw [isNone_eq_false_of_isSome _ (hSc d hd kv hkv)]
      simp
    have hA2 : (e.gaugeDefs.filter (fun d => (assocFind (assocErase S k) d.key).isNone))
        = e.gaugeDefs.filter (fun d => d.key = k) := by
      apply List.filter_congr
      intro d hd
      rw [assocFind_assocErase]
      by_cases hk : d.key = k
      · simp [hk]
      · rw [if_neg hk, isNone_eq_false_of_isSome _ (hSg d hd)]
        simp [hk]
    have hB2 : (e.counterVecDefs.map (fun d =>
          (d.labelMap.filter (fun kv => (assocFind (assocErase S k) kv.1).isNone)).length))
        = e.counterVecDefs.map (fun d =>
          (d.labelMap.filter (fun kv => kv.1 = k)).length) := by
      apply List.map_congr_left
      intro d hd
      congr 1
      apply List.filter_congr
      intro kv hkv
      rw [assocFind_assocErase]
      by_cases hk : kv.1 = k
      · simp [hk]
      · rw [if_neg hk, isNone_eq_false_of_isSome _ (hSc d hd kv hkv)]
        simp [hk]
    rw [hA, hB, hA2, hB2]
    unfold refCount
    omega
  · intro d hd hdk
    rw [hsm1, hsm2, gaugeValue_populate e _ d hd hgnd, gaugeValue_populate e S d hd hgnd,
      assocFind_assocErase, if_neg hdk]
  · intro d hd kv hkv hk1
    rw [hsm1, hsm2,
      counterValue_populate e _ d kv hd hkv hcnd (hlnd d hd),
      counterValue_populate e S d kv hd hkv hcnd (hlnd d hd),
      assocFind_assocErase, if_neg hk1]

/-- C3: for an exporter bound to any of the program's registries and a
snapshot containing every key the registry references, removing any
single raw key `k` from the snapshot makes the collection cycle's
populate phase increment the parse-failure counter by exactly the number
of gauge definitions plus counter labelMap entries referencing `k`,
while every gauge and counter-vector label value not derived from `k` is
identical to the run on the full snapshot; the cycle never aborts (both
runs are ordinary total runs of the same populate phase). -/
theorem claimC3 (flavor : String) (e : Exporter) (S : StatsMap) (k : String)
    (hgd : e.gaugeDefs = (registryFor flavor).1)
    (hcd : e.counterVecDefs = (registryFor flavor).2)
    (hSg : ∀ d ∈ e.gaugeDefs, (assocFind S d.key).isSome = true)
    (hSc : ∀ d ∈ e.counterVecDefs, ∀ kv ∈ d.labelMap, (assocFind S kv.1).isSome = true) :
    (e.setMetricsMap (assocErase S k)).jsonParseFailures
        = (e.setMetricsMap S).jsonParseFailures
          + refCount e.gaugeDefs e.counterVecDefs k
    ∧ (∀ d ∈ e.gaugeDefs, ¬ d.key = k →
        (e.setMetricsMap (assocErase S k)).gaugeValue d.id
          = (e.setMetricsMap S).gaugeValue d.id)
    ∧ (∀ d ∈ e.counterVecDefs, ∀ kv ∈ d.labelMap, ¬ kv.1 = k →
        (e.setMetricsMap (assocErase S k)).counterValue d.id kv.2
          = (e.setMetricsMap S).counterValue d.id kv.2) := by
  by_cases hrec : flavor = "recursor"
  · subst hrec
    have hgd2 : e.gaugeDefs = recursorGaugeDefs := hgd
    have hcd2 : e.counterVecDefs = recursorCounterVecDefs := hcd
    refine setMetricsMap_removeKey e S k ?_ ?_ ?_ hSg hSc ?_
    · rw [hgd2]; decide
    · rw [hcd2]; decide
    · rw [hcd2]; decide
    · by_cases hk : "qa-latency" = k
      · have hmem : (⟨2, "concurrent_queries", "Number of concurrent queries.",
            "concurrent-queries"⟩ : gaugeDefinition) ∈ e.gaugeDefs := by
          rw [hgd2]; decide
        have hfind := hSg _ hmem
        have hat : (assocFind (assocErase S k) "concurrent-queries").isSome = true := by
          rw [assocFind_assocErase, if_neg (by rw [← hk]; decide)]
          exact hfind
        exact isEmpty_eq_false_of_find_isSome _ _ hat
      · have hmem : (⟨1, "latency_average_seconds",
            "Exponential moving average of question-to-answer latency.",
            "qa-latency"⟩ : gaugeDefinition) ∈ e.gaugeDefs := by
          rw [hgd2]; decide
        have hfind := hSg _ hmem
        have hat : (assocFind (assocErase S k) "qa-latency").isSome = true := by
          rw [assocFind_assocErase, if_neg hk]
          exact hfind
        exact isEmpty_eq_false_of_find_isSome _ _ hat
  · by_cases hauth : flavor = "authoritative"
    · subst hauth
      have hgd2 : e.gaugeDefs = authoritativeGaugeDefs := by
        rw [hgd]; simp [registryFor]
      have hcd2 : e.counterVecDefs = authoritativeCounterVecDefs := by
        rw [hcd]; simp [registryFor]
      refine setMetricsMap_removeKey e S k ?_ ?_ ?_ hSg hSc ?_
      · rw [hgd2]; decide
      · rw [hcd2]; decide
      · rw [hcd2]; decide
      · by_cases hk : "latency" = k
        · have hmem : (⟨2, "packet_cache_size",
              "Number of entries in the packet cache.",
              "packetcache-size"⟩ : gaugeDefinition) ∈ e.gaugeDefs := by
            rw [hgd2]; decide
          have hfind := hSg _ hmem
          have hat : (assocFind (assocErase S k) "packetcache-size").isSome = true := by
            rw [assocFind_assocErase, if_neg (by rw [← hk]; decide)]
            exact hfind
          exact isEmpty_eq_false_of_find_isSome _ _ hat
        · have hmem : (⟨1, "latency_average_seconds",
              "Exponential moving average of question-to-answer latency.",
              "latency"⟩ : gaugeDefinition) ∈ e.gaugeDefs := by
            rw [hgd2]; decide
          have hfind := hSg _ hmem
          have hat : (assocFind (assocErase S k) "latency").isSome = true := by
            rw [assocFind_assocErase, if_neg hk]
            exact hfind
          exact isEmpty_eq_false_of_find_isSome _ _ hat
    · have hreg : (registryFor flavor).1 = [] ∧ (registryFor flavor).2 = [] := by
        unfold registryFor
        rw [if_neg hrec, if_neg hauth]
        by_cases hd3 : flavor = "dnsdist"
        · rw [if_pos hd3]; exact ⟨rfl, rfl⟩
        · rw [if_neg hd3]; exact ⟨rfl, rfl⟩
      have hgd0 : e.gaugeDefs = [] := hgd.trans hreg.1
      have hcd0 : e.counterVecDefs = [] := hcd.trans hreg.2
      have hpop : ∀ m : StatsMap, e.populate m = e := by
        intro m
        unfold Exporter.populate
        rw [hgd0, hcd0]
        rfl
      have hsm : ∀ m : StatsMap, e.setMetricsMap m = e := by
        intro m
        unfold Exporter.setMetricsMap
        by_cases hm : m.isEmpty = true
        · rw [if_pos hm]
        · rw [if_neg hm, hpop]
      refine ⟨?_, ?_, ?_⟩
      · rw [hsm, hsm]
        have hrc : refCount e.gaugeDefs e.counterVecDefs k = 0 := by
          rw [hgd0, hcd0]
          rfl
        rw [hrc]
        omega
      · intro d hd _
        rw [hgd0] at hd
        exact absurd hd (List.not_mem_nil d)
      · intro d hd kv _ _
        rw [hcd0] at hd
        exact absurd hd (List.not_mem_nil d)

/-- A complete recursor snapshot: every raw key referenced by the
recursor registry, with sample values. -/
def sampleRecursorStats : StatsMap :=
  [("qa-latency", 1200), ("concurrent-queries", 3), ("cache-entries", 50),
   ("questions", 10), ("tcp-questions", 2), ("all-outqueries", 8),
   ("tcp-outqueries", 1), ("cache-hits", 8), ("cache-misses", 1),
   ("servfail-answers", 1), ("nxdomain-answers", 2), ("noerror-answers", 7),
   ("answers0-1", 1), ("answers1-10", 10), ("answers10-100", 100),
   ("answers100-1000", 1000), ("answers-slow", 0), ("resource-limits", 0),
   ("over-capacity-drops", 0), ("unreachables", 0), ("outgoing-timeouts", 0)]

/-- C3 witness: removing `cache-hits` (referenced once, by the cache
counter-group) from a complete recursor snapshot raises the parse-failure
counter by exactly 1 and leaves the `miss` label of the same group
unchanged. -/
theorem claimC3_witness :
    ((NewExporter "recursor").setMetricsMap
        (assocErase sampleRecursorStats "cache-hits")).jsonParseFailures
      = ((NewExporter "recursor").setMetricsMap sampleRecursorStats).jsonParseFailures + 1
    ∧ ((NewExporter "recursor").setMetricsMap
        (assocErase sampleRecursorStats "cache-hits")).counterValue 3 "miss"
      = ((NewExporter "recursor").setMetricsMap sampleRecursorStats).counterValue 3 "miss" := by
  have h := claimC3 "recursor" (NewExporter "recursor") sampleRecursorStats "cache-hits"
    rfl rfl (by decide) (by decide)
  constructor
  · have hrc : refCount (NewExporter "recursor").gaugeDefs
        (NewExporter "recursor").counterVecDefs "cache-hits" = 1 := by decide
    exact h.1.trans (by rw [hrc])
  · exact h.2.2
      ⟨3, "cache_lookups_total", "Total number of cache lookups by result.", "result",
        [("cache-hits", "hit"), ("cache-misses", "miss")]⟩
      (by decide) ("cache-misses", "miss") (by decide) (by decide)

end PowerDNSExporter
